import Mathlib

/-!
# Pricing tab: dynamic cost columns, aggregation and contribution scenarios

A shallow embedding of the calculation code of
`src/components/CostAndPricing/PricingTab/PricingTable.jsx`,
`src/components/CostAndPricing/PricingTab/TotalsTable.jsx` and
`src/components/CostAndPricing/PricingTab/cells/footers.jsx`.

JavaScript numbers are embedded as `JSNum`: a finite value is an exact rational
(the rounding of IEEE-754 doubles and overflow to `Infinity` are abstracted
away), and the special values `-0`, `Infinity`, `-Infinity` and `NaN` are kept
explicit, because the code divides without guards and these are what a
division by zero produces. A statement about the value of a finite result
(`toRat?`) therefore holds of the code up to the rounding of binary64; which
operands the code combines, what it returns at a zero divisor, and sums and
differences of small integers do not depend on rounding.
-/

namespace PricingTab

/-! ## JavaScript numbers -/

/-- A JavaScript number, idealised: `fin q` is the finite value `q`, kept exact where
binary64 would round it (`fin 0` is `+0`), `negZero` is `-0`. -/
inductive JSNum where
  | fin (q : ℚ)
  | negZero
  | posInf
  | negInf
  | nan
  deriving DecidableEq

namespace JSNum

instance : OfNat JSNum n := ⟨fin n⟩

/-- The sign bit of a number (`false` for `NaN`, whose sign is never used). -/
def isNeg : JSNum → Bool
  | fin q => decide (q < 0)
  | negZero => true
  | posInf => false
  | negInf => true
  | nan => false

/-- The number is `+0` or `-0`. -/
def isZero : JSNum → Bool
  | fin q => decide (q = 0)
  | negZero => true
  | _ => false

/-- The number is `Infinity` or `-Infinity`. -/
def isInf : JSNum → Bool
  | posInf => true
  | negInf => true
  | _ => false

/-- The number is `NaN`. -/
def isNaN : JSNum → Bool
  | nan => true
  | _ => false

/-- JavaScript `Number.isFinite`. -/
def isFinite : JSNum → Bool
  | fin _ => true
  | negZero => true
  | _ => false

/-- The mathematical value of a finite number; `none` for `±Infinity`, `NaN`. -/
def toRat? : JSNum → Option ℚ
  | fin q => some q
  | negZero => some 0
  | _ => none

/-- Zero with the given sign bit. -/
def signedZero (neg : Bool) : JSNum := if neg then negZero else fin 0

/-- Infinity with the given sign bit. -/
def signedInf (neg : Bool) : JSNum := if neg then negInf else posInf

/-- Unary minus. -/
def neg : JSNum → JSNum
  | fin q => if q = 0 then negZero else fin (-q)
  | negZero => fin 0
  | posInf => negInf
  | negInf => posInf
  | nan => nan

/-- JavaScript `x + y`, with the exact sum of finite numbers where binary64 rounds or
overflows. -/
def add : JSNum → JSNum → JSNum
  | nan, _ => nan
  | _, nan => nan
  | posInf, negInf => nan
  | negInf, posInf => nan
  | posInf, _ => posInf
  | _, posInf => posInf
  | negInf, _ => negInf
  | _, negInf => negInf
  | negZero, negZero => negZero
  | negZero, fin b => fin b
  | fin a, negZero => fin a
  | fin a, fin b => fin (a + b)

/-- JavaScript `x - y`. -/
def sub (x y : JSNum) : JSNum := add x (neg y)

/-- JavaScript `x / y`, with the exact quotient of finite non-zero numbers where binary64
rounds or overflows. -/
def div (x y : JSNum) : JSNum :=
  if x.isNaN || y.isNaN then nan
  else if x.isInf then
    if y.isInf then nan else signedInf (xor x.isNeg y.isNeg)
  else if y.isInf then signedZero (xor x.isNeg y.isNeg)
  else if y.isZero then
    if x.isZero then nan else signedInf (xor x.isNeg y.isNeg)
  else if x.isZero then signedZero (xor x.isNeg y.isNeg)
  else
    match x, y with
    | fin a, fin b => fin (a / b)
    | _, _ => nan

instance : Add JSNum := ⟨add⟩
instance : Sub JSNum := ⟨sub⟩
instance : Div JSNum := ⟨div⟩

/-- JavaScript `x === y` on numbers: `NaN` equals nothing, `+0 === -0`. -/
def strictEq (x y : JSNum) : Bool :=
  match x.toRat?, y.toRat? with
  | some a, some b => decide (a = b)
  | _, _ => (x == posInf && y == posInf) || (x == negInf && y == negInf)

end JSNum

/-! ## Arrays -/

/-- JavaScript `Array.prototype.indexOf`: the first index holding `v`, or `-1`. -/
def indexOf {α : Type} [DecidableEq α] (self : List α) (v : α) : Int :=
  if v ∈ self then (List.indexOf v self : Int) else -1

/-- JavaScript `Array.prototype.filter` with the three-argument callback
`(value, index, self)`. -/
def filter {α : Type} (self : List α) (callback : α → Nat → List α → Bool) : List α :=
  (self.enum.filter (fun iv => callback iv.2 iv.1 self)).map Prod.snd

/-- The callback `(value, index, self) => self.indexOf(value) === index`. -/
def isFirstOccurrence {α : Type} [DecidableEq α] (value : α) (index : Nat) (self : List α) :
    Bool :=
  indexOf self value == (index : Int)

/-- The words of the specification, "deduplicate preserving order of first
occurrence": every element is kept where it is first seen and dropped from
the rest. -/
def dedupFirstSeen {α : Type} [DecidableEq α] : List α → List α
  | [] => []
  | x :: xs => x :: (dedupFirstSeen xs).filter (fun y => decide (y ≠ x))

/-! ## Data model -/

/-- A cost of a product: `{ name, value }`. -/
structure Cost where
  name : String
  value : JSNum
  deriving DecidableEq

/-- A product of a quote: its costs and its estimated hours. The code under study
reads only `costs`; the hours are read by the imported column `estimated_hours`. -/
structure Product where
  costs : List Cost
  estimated_hours : JSNum
  deriving DecidableEq

/-- A quote: `{ products }`. -/
structure Quote where
  products : List Product
  deriving DecidableEq

/-- The flattened cost names of a quote, in product order then cost order:
`quote.products.flatMap((product) => product.costs.map((cost) => cost.name))`. -/
def costNames (quote : Quote) : List String :=
  quote.products.flatMap (fun product => product.costs.map (fun cost => cost.name))

/-! ## Columns and the table -/

/-- Modelled from the spec: the aggregation strategy tag of a column definition
(`sum` | `none`); the table library that resolves the tag is not part of the
sources. -/
inductive AggregationStrategy where
  | sum
  | none
  deriving DecidableEq

/-- A column definition, as built in `PricingTable`: its id, its accessor (a
number, or `none` for `undefined`), its header, its aggregation strategy and
`meta.costName`. -/
structure ColumnDef where
  id : String
  accessorFn : Product → Option JSNum
  header : String
  aggregationFn : AggregationStrategy
  costName : Option String

/-- The table instance: the options `data` and `columns` given to
`useReactTable`. -/
structure Table where
  data : List Product
  columns : List ColumnDef

/-- Modelled from the spec: `table.getColumn(columnId)` of the table library,
the column definition with that "stable id" (the last one, should an id be
registered twice), `none` when there is none. -/
def Table.getColumn (table : Table) (columnId : String) : Option ColumnDef :=
  table.columns.reverse.find? (fun column => column.id == columnId)

/-- Modelled from the spec: `table.getCoreRowModel().rows` of the table library,
one row per product of `data`, in order. -/
def Table.getCoreRowModel (table : Table) : List Product :=
  table.data

/-- Modelled from the spec: `row.getValue(columnId)` of the table library, the
result of the column's accessor on the row's product, `undefined` without
such a column. -/
def Table.getValue (table : Table) (row : Product) (columnId : String) : Option JSNum :=
  (table.getColumn columnId).bind (fun column => column.accessorFn row)

/-- Modelled from the spec: the `sum` aggregation of the table library, called as
`aggregationFn(columnId, [], rows)`: "sum the accessor's result over all rows,
treating undefined as 0". -/
def Table.sum (table : Table) (columnId : String) (rows : List Product) : JSNum :=
  rows.foldl
    (fun sum next =>
      sum + (match table.getValue next columnId with
        | some nextValue => nextValue
        | Option.none => 0))
    0

/-- Modelled from the spec: `column.getAggregationFn()` of the table library,
the function of the column's strategy tag; `none` stands for `undefined`. -/
def Table.getAggregationFn (table : Table) (column : ColumnDef) :
    Option (String → List Product → JSNum) :=
  match column.aggregationFn with
  | AggregationStrategy.sum => some table.sum
  | AggregationStrategy.none => Option.none

namespace PricingTable

/-- The first two steps of `dynamicColumns`:
`quote.products.flatMap((product) => product.costs.map((cost) => cost.name))
  .filter((value, index, self) => self.indexOf(value) === index)`. -/
def dynamicColumnNames (quote : Quote) : List String :=
  filter (costNames quote) isFirstOccurrence

/-- The column built for one name by the `.map` of `dynamicColumns`. -/
def dynamicColumn (name : String) : ColumnDef where
  id := "dynamic-cost-" ++ name
  accessorFn := fun row => (row.costs.find? (fun cost => cost.name == name)).map (fun cost => cost.value)
  header := name
  aggregationFn := AggregationStrategy.sum
  costName := some name

/-- The array `dynamicColumns` of `PricingTable`. -/
def dynamicColumns (quote : Quote) : List ColumnDef :=
  (dynamicColumnNames quote).map dynamicColumn

/-- The value formatted by the `footer` of the dynamic column for `name`:
`column.getAggregationFn()?.('dynamic-cost-' + name, [], rows)`; `none` when
the aggregation function is `undefined`. -/
def dynamicColumnFooter (table : Table) (name : String) : Option JSNum :=
  (table.getAggregationFn (dynamicColumn name)).map
    (fun aggregate => aggregate ("dynamic-cost-" ++ name) table.getCoreRowModel)

/-- The column definitions imported from `./columns`, which is not part of the
sources: they are parameters of the table. -/
structure ImportedColumns where
  consistentColumns : List ColumnDef
  addDynamicCostColumn : ColumnDef
  calculatedCosts : List ColumnDef
  estimatedHoursColumn : ColumnDef
  contributionColumns : List ColumnDef

/-- The imported columns, in one list. -/
def ImportedColumns.all (imported : ImportedColumns) : List ColumnDef :=
  imported.consistentColumns ++ [imported.addDynamicCostColumn] ++ imported.calculatedCosts
    ++ [imported.estimatedHoursColumn] ++ imported.contributionColumns

/-- The array `columns` of `PricingTable`. -/
def columns (imported : ImportedColumns) (quote : Quote) : List ColumnDef :=
  imported.consistentColumns ++ dynamicColumns quote ++ [imported.addDynamicCostColumn]
    ++ imported.calculatedCosts ++ [imported.estimatedHoursColumn]
    ++ imported.contributionColumns

/-- The instance `table` of `PricingTable`:
`useReactTable({ data: quote.products, columns, ... })`. -/
def table (imported : ImportedColumns) (quote : Quote) : Table where
  data := quote.products
  columns := columns imported quote

end PricingTable

/-! ## The totals table -/

/-- The three `useState` cells of `TotalsTable`. -/
structure TotalsTableState where
  contributionPercent : JSNum
  manualPrice : JSNum
  pricePerItem : JSNum
  deriving DecidableEq

/-- The initial state: `useState(0)` three times. -/
def TotalsTableState.initial : TotalsTableState where
  contributionPercent := 0
  manualPrice := 0
  pricePerItem := 0

/-- The props of `ContributionRows`; the slot `marginInput` is represented by the
value its `Input` shows. -/
structure ContributionRowsProps where
  marginInput : JSNum
  manualPrice : JSNum
  pricePerItem : JSNum
  profitMarginTotalPrice : JSNum
  totalVariableCosts : JSNum
  estimatedTotalHours : JSNum
  deriving DecidableEq

/-- The nine cells rendered by `ContributionRows`, each as the value handed to
the formatter (`toLocaleString`), in row order then column order (target,
manual, per item). -/
structure ContributionRowsCells where
  targetContrib : JSNum
  manualContrib : JSNum
  perItemContrib : JSNum
  targetMargin : JSNum
  manualMargin : JSNum
  perItemMargin : JSNum
  targetPerHour : JSNum
  manualPerHour : JSNum
  perItemPerHour : JSNum
  deriving DecidableEq

/-- The component `ContributionRows` of `TotalsTable.jsx`. -/
def ContributionRows (props : ContributionRowsProps) : ContributionRowsCells :=
  let manualContrib := props.manualPrice - props.totalVariableCosts
  let perItemContrib := props.pricePerItem - props.totalVariableCosts
  let targetContrib := props.profitMarginTotalPrice - props.totalVariableCosts
  { targetContrib := targetContrib
    manualContrib := manualContrib
    perItemContrib := perItemContrib
    targetMargin := props.marginInput
    manualMargin := manualContrib / props.manualPrice
    perItemMargin := perItemContrib / props.pricePerItem
    targetPerHour := targetContrib / props.estimatedTotalHours
    manualPerHour := manualContrib / props.estimatedTotalHours
    perItemPerHour := perItemContrib / props.estimatedTotalHours }

namespace TotalsTable

/-- The callback `aggregate` of `TotalsTable`:
`table.getColumn(column).getAggregationFn()(column, [], table.getCoreRowModel().rows)`;
`none` when the call throws (no such column, or no aggregation function). -/
def aggregate (table : Table) (column : String) : Option JSNum := do
  let columnDef ← table.getColumn column
  let aggregationFn ← table.getAggregationFn columnDef
  pure (aggregationFn column table.getCoreRowModel)

/-- The callback `getCMTotalSellingPrice` of `TotalsTable`:
`aggregate('totalVariableCosts') / (1 - contributionPercent / 100)`. -/
def getCMTotalSellingPrice (table : Table) (contributionPercent : JSNum) : Option JSNum := do
  let totalVariableCosts ← aggregate table "totalVariableCosts"
  pure (totalVariableCosts / (1 - contributionPercent / 100))

/-- The array `dynamicCostIds` of `TotalsTable`:
`quote.products[0].costs.map((cost) => 'dynamic-cost-' + cost.name)`; `none`
when `quote.products[0]` is `undefined` and the property access throws. -/
def dynamicCostIds (quote : Quote) : Option (List String) :=
  (quote.products[0]?).map (fun product => product.costs.map (fun cost => "dynamic-cost-" ++ cost.name))

end TotalsTable

/-- What `TotalsTable` computes for its body: the target selling price of the
first row, the ids of the dynamic cost rows, and the cells of
`ContributionRows`. -/
structure TotalsTableCells where
  sellingPrice : JSNum
  manualPrice : JSNum
  pricePerItem : JSNum
  dynamicCostIds : List String
  contributionRows : ContributionRowsCells
  deriving DecidableEq

/-- The component `TotalsTable` of `TotalsTable.jsx`, for the current state; `none` when
rendering throws. -/
def TotalsTable (quote : Quote) (table : Table) (state : TotalsTableState) :
    Option TotalsTableCells := do
  let dynamicCostIds ← TotalsTable.dynamicCostIds quote
  let sellingPrice ← TotalsTable.getCMTotalSellingPrice table state.contributionPercent
  let profitMarginTotalPrice ← TotalsTable.getCMTotalSellingPrice table state.contributionPercent
  let totalVariableCosts ← TotalsTable.aggregate table "totalVariableCosts"
  let estimatedTotalHours ← TotalsTable.aggregate table "estimated_hours"
  pure
    { sellingPrice := sellingPrice
      manualPrice := state.manualPrice
      pricePerItem := state.pricePerItem
      dynamicCostIds := dynamicCostIds
      contributionRows := ContributionRows
        { marginInput := state.contributionPercent
          manualPrice := state.manualPrice
          pricePerItem := state.pricePerItem
          profitMarginTotalPrice := profitMarginTotalPrice
          totalVariableCosts := totalVariableCosts
          estimatedTotalHours := estimatedTotalHours } }

/-! ## Footers -/

/-- The part of `column.columnDef.meta` that `ContributionFooter` reads. -/
structure ContributionMeta where
  footerContribDivisor : Option String
  footerContribFormat : Option String
  deriving DecidableEq

/-- What `ContributionFooter` hands to `NumberFormatter`: `value` and `variant`. -/
structure NumberFormatterProps where
  value : JSNum
  variant : String
  deriving DecidableEq

/-- JavaScript truthiness of an optional string: `undefined` and `''` are falsy. -/
def truthy (s : Option String) : Bool :=
  match s with
  | some id => id != ""
  | none => false

namespace ContributionFooter

/-- The constant `divisorId` of `ContributionFooter`:
`column.columnDef.meta?.footerContribDivisor`. -/
def divisorId (columnMeta : Option ContributionMeta) : Option String :=
  columnMeta.bind (fun m => m.footerContribDivisor)

/-- The constant `format` of `ContributionFooter`:
`column.columnDef.meta?.footerContribFormat ?? 'number'`. -/
def format (columnMeta : Option ContributionMeta) : String :=
  (columnMeta.bind (fun m => m.footerContribFormat)).getD "number"

/-- The constant `contribution` of `ContributionFooter`:
`aggregate(table, 'contributionDollars') ?? 0`. The helper `aggregate` of `../utils` is
not part of the sources and is a parameter; `none` stands for `null` or `undefined`. -/
def contribution (aggregate : Table → String → Option JSNum) (table : Table) : JSNum :=
  (aggregate table "contributionDollars").getD 0

/-- The constant `divisor` of `ContributionFooter`:
`(divisorId ? aggregate(table, divisorId) : null) ?? 0`. -/
def divisor (aggregate : Table → String → Option JSNum) (table : Table)
    (columnMeta : Option ContributionMeta) : JSNum :=
  (if truthy (divisorId columnMeta) then
      (divisorId columnMeta).bind (fun id => aggregate table id)
    else none).getD 0

end ContributionFooter

/-- The component `ContributionFooter` of `cells/footers.jsx`:
`result = divisor === 0 ? 0 : contribution / divisor`, rendered as
`<NumberFormatter value={result} variant={format} />`. -/
def ContributionFooter (aggregate : Table → String → Option JSNum) (table : Table)
    (columnMeta : Option ContributionMeta) : NumberFormatterProps :=
  let contribution := ContributionFooter.contribution aggregate table
  let divisor := ContributionFooter.divisor aggregate table columnMeta
  let result := if JSNum.strictEq divisor 0 then 0 else contribution / divisor
  { value := result, variant := ContributionFooter.format columnMeta }

/-! ## Sample data -/

/-- A sample of the helper `aggregate` of `../utils`: a contribution of 25 and 4
estimated hours, nothing aggregated for any other column. -/
def sampleAggregate (_table : Table) (column : String) : Option JSNum :=
  if column = "contributionDollars" then some 25
  else if column = "estimated_hours" then some 4
  else if column = "idleHours" then some 0
  else none


/-- A sample of the imported columns, with the ids that `TotalsTable` refers to:
the total variable costs of a product are taken to be the sum of its costs, and
the credit card fee to be absent. -/
def sampleColumns : PricingTable.ImportedColumns where
  consistentColumns := [⟨"name", fun _ => none, "Name", AggregationStrategy.none, none⟩]
  addDynamicCostColumn := ⟨"addDynamicCost", fun _ => none, "", AggregationStrategy.none, none⟩
  calculatedCosts :=
    [⟨"creditCardFee", fun _ => none, "Credit Card Fee", AggregationStrategy.sum, none⟩,
     ⟨"totalVariableCosts",
      fun row => some (row.costs.foldl (fun total cost => total + cost.value) 0),
      "Total Variable Costs", AggregationStrategy.sum, none⟩]
  estimatedHoursColumn :=
    ⟨"estimated_hours", fun row => some row.estimated_hours, "Estimated Hours",
      AggregationStrategy.sum, none⟩
  contributionColumns := []

/-- The quote of the end-to-end scenario: P1 with costs shipping 10 and packaging 5
and 2 hours, P2 with cost shipping 8 and 3 hours. -/
def sampleQuote : Quote where
  products :=
    [⟨[⟨"shipping", 10⟩, ⟨"packaging", 5⟩], 2⟩,
     ⟨[⟨"shipping", 8⟩], 3⟩]

/-- A quote of three products of which only the second has a packaging cost. -/
def sampleQuoteThree : Quote where
  products :=
    [⟨[⟨"shipping", 10⟩], 2⟩,
     ⟨[⟨"shipping", 8⟩, ⟨"packaging", 5⟩], 3⟩,
     ⟨[], 1⟩]

/-- A quote whose total variable costs are 100, over 4 hours. -/
def sampleQuoteHundred : Quote where
  products := [⟨[⟨"materials", 60⟩, ⟨"shipping", 40⟩], 4⟩]

/-- The table that `PricingTable` builds for a quote with the sample columns. -/
def sampleTable (quote : Quote) : Table :=
  PricingTable.table sampleColumns quote

/-- A quote of one product without costs and without hours. -/
def sampleQuoteIdle : Quote where
  products := [⟨[], 0⟩]

/-! ## The formulas of the specification -/

/-- The words of the specification, "Target scenario selling price:
totalVariableCosts / (1 - contributionPercentTarget/100)", over the rationals. -/
def targetSellingPriceFormula (totalVariableCosts contributionPercentTarget : ℚ) : ℚ :=
  totalVariableCosts / (1 - contributionPercentTarget / 100)

/-- The words of the specification, "Contribution margin (%): contribution divided by
selling price", with "Contribution: selling price minus total variable costs", over the
rationals. -/
def contributionMarginFormula (sellingPrice totalVariableCosts : ℚ) : ℚ :=
  (sellingPrice - totalVariableCosts) / sellingPrice

end PricingTab

/-! # Theorems -/

namespace PricingTab

/-! ## The de-duplicating filter -/

section FirstOccurrence
variable {α : Type} [DecidableEq α]

/-- The callback of the de-duplicating filter holds at index `i` exactly when `i` is the
first index of `v`. -/
theorem isFirstOccurrence_iff (self : List α) (v : α) (i : Nat) :
    isFirstOccurrence v i self = true ↔ v ∈ self ∧ List.indexOf v self = i := by
  unfold isFirstOccurrence indexOf
  by_cases h : v ∈ self
  · simp [h]
  · simp only [h, if_false, false_and, iff_false]
    simp only [beq_iff_eq]
    omega

omit [DecidableEq α] in
/-- Membership in the result of `filter`. -/
theorem mem_filter_iff (self : List α) (callback : α → Nat → List α → Bool) (v : α) :
    v ∈ filter self callback ↔ ∃ i, self[i]? = some v ∧ callback v i self = true := by
  unfold filter
  simp only [List.mem_map, List.mem_filter, List.mem_enum_iff_getElem?]
  constructor
  · rintro ⟨⟨i, w⟩, ⟨h1, h2⟩, rfl⟩
    exact ⟨i, h1, h2⟩
  · rintro ⟨i, h1, h2⟩
    exact ⟨(i, v), ⟨h1, h2⟩, rfl⟩

omit [DecidableEq α] in
/-- The result of `filter` is a subsequence of the array. -/
theorem filter_sublist (self : List α) (callback : α → Nat → List α → Bool) :
    (filter self callback).Sublist self := by
  unfold filter
  have h := (@List.filter_sublist (Nat × α) (fun iv => callback iv.2 iv.1 self) self.enum).map Prod.snd
  rwa [List.enum_map_snd] at h

/-- The de-duplicating filter keeps every element of the array. -/
theorem mem_filter_isFirstOccurrence (self : List α) (v : α) :
    v ∈ filter self isFirstOccurrence ↔ v ∈ self := by
  constructor
  · intro h
    exact (filter_sublist _ _).subset h
  · intro h
    rw [mem_filter_iff]
    refine ⟨List.indexOf v self, ?_, ?_⟩
    · rw [← List.get?_eq_getElem?]
      exact List.indexOf_get? h
    · exact (isFirstOccurrence_iff self v _).2 ⟨h, rfl⟩

/-- The de-duplicating filter lists the elements by increasing first index. -/
theorem filter_isFirstOccurrence_pairwise (self : List α) :
    (filter self isFirstOccurrence).Pairwise
      (fun a b => List.indexOf a self < List.indexOf b self) := by
  unfold filter
  rw [List.pairwise_map]
  have hfst : (self.enum).Pairwise (fun x y => x.1 < y.1) := by
    have h := List.pairwise_lt_range self.length
    rw [← List.enum_map_fst self, List.pairwise_map] at h
    exact h
  have hsub := hfst.sublist
    (@List.filter_sublist (Nat × α) (fun iv => isFirstOccurrence iv.2 iv.1 self) self.enum)
  refine hsub.imp_of_mem ?_
  intro x y hx hy hxy
  rw [List.mem_filter] at hx hy
  have hx2 := (isFirstOccurrence_iff self x.2 x.1).1 hx.2
  have hy2 := (isFirstOccurrence_iff self y.2 y.1).1 hy.2
  rw [hx2.2, hy2.2]
  exact hxy

/-- The de-duplicating filter leaves no duplicates. -/
theorem filter_isFirstOccurrence_nodup (self : List α) :
    (filter self isFirstOccurrence).Nodup := by
  have h := filter_isFirstOccurrence_pairwise self
  exact h.imp (fun hab => by intro heq; subst heq; exact lt_irrefl _ hab)

/-- Filtering a suffix of the array by first occurrence keeps the first-seen elements of
the suffix that do not occur in the prefix. -/
theorem filter_enumFrom_isFirstOccurrence (xs pre : List α) :
    ((List.enumFrom pre.length xs).filter
        (fun iv => isFirstOccurrence iv.2 iv.1 (pre ++ xs))).map Prod.snd
      = (dedupFirstSeen xs).filter (fun y => decide (y ∉ pre)) := by
  induction xs generalizing pre with
  | nil => simp [dedupFirstSeen]
  | cons x xs ih =>
    have hih := ih (pre ++ [x])
    simp only [List.length_append, List.length_singleton, List.append_assoc,
      List.singleton_append] at hih
    have hcb : isFirstOccurrence x pre.length (pre ++ x :: xs) = decide (x ∉ pre) := by
      rw [Bool.eq_iff_iff, isFirstOccurrence_iff]
      simp only [decide_eq_true_eq]
      constructor
      · rintro ⟨_, h⟩ hmem
        have h1 : List.indexOf x (pre ++ x :: xs) = List.indexOf x pre :=
          List.indexOf_append_of_mem hmem
        have h2 := List.indexOf_lt_length.2 hmem
        omega
      · intro h
        refine ⟨by simp, ?_⟩
        rw [List.indexOf_append_of_not_mem h]
        simp
    have hfilt : (dedupFirstSeen xs).filter (fun y => decide (y ∉ pre ++ [x]))
        = ((dedupFirstSeen xs).filter (fun y => decide (y ≠ x))).filter
            (fun y => decide (y ∉ pre)) := by
      rw [List.filter_filter]
      congr 1
      funext y
      simp only [List.mem_append, List.mem_singleton, not_or, Bool.decide_and, ne_eq]
    simp only [List.enumFrom_cons, List.filter_cons, hcb, dedupFirstSeen]
    by_cases hx : x ∈ pre
    · simp only [hx, not_true_eq_false, decide_False, Bool.false_eq_true, if_false]
      rw [hih, hfilt]
    · simp only [hx, not_false_eq_true, decide_True, if_true, List.map_cons]
      rw [hih, hfilt]

/-- The de-duplicating filter of the code is the de-duplication of the specification. -/
theorem filter_isFirstOccurrence_eq (self : List α) :
    filter self isFirstOccurrence = dedupFirstSeen self := by
  have h := filter_enumFrom_isFirstOccurrence self []
  simpa [filter, List.enum] using h

end FirstOccurrence

/-- A name is among the flattened cost names iff some product has a cost of that name. -/
theorem mem_costNames (quote : Quote) (n : String) :
    n ∈ costNames quote ↔ ∃ p ∈ quote.products, ∃ c ∈ p.costs, c.name = n := by
  simp [costNames, List.mem_flatMap]

/-! ## C1 -/

/-- C1: for every quote, the names of the dynamic columns computed in `PricingTable` are the
flattened cost names of the products (product order, then cost order) de-duplicated keeping
first occurrences: the list has no duplicates, holds a name iff some product has a cost of
that name, is a subsequence of the flattened names, and lists the names by increasing index
of first occurrence; the column ids and headers are built from these names in this order.
Products with cost names `[A,B]`, `[B,C]`, `[A,D]` give `[A,B,C,D]`. -/
theorem dynamicColumns_names_dedup_first_seen :
    (∀ quote : Quote,
      PricingTable.dynamicColumnNames quote = dedupFirstSeen (costNames quote)
      ∧ (PricingTable.dynamicColumnNames quote).Nodup
      ∧ (∀ n, n ∈ PricingTable.dynamicColumnNames quote ↔
          ∃ p ∈ quote.products, ∃ c ∈ p.costs, c.name = n)
      ∧ (PricingTable.dynamicColumnNames quote).Sublist (costNames quote)
      ∧ (PricingTable.dynamicColumnNames quote).Pairwise
          (fun a b => List.indexOf a (costNames quote) < List.indexOf b (costNames quote))
      ∧ (PricingTable.dynamicColumns quote).map (fun column => column.header)
          = PricingTable.dynamicColumnNames quote
      ∧ (PricingTable.dynamicColumns quote).map (fun column => column.costName)
          = (PricingTable.dynamicColumnNames quote).map some
      ∧ (PricingTable.dynamicColumns quote).map (fun column => column.id)
          = (PricingTable.dynamicColumnNames quote).map (fun n => "dynamic-cost-" ++ n))
    ∧ PricingTable.dynamicColumnNames
        ⟨[⟨[⟨"A", 1⟩, ⟨"B", 2⟩], 0⟩, ⟨[⟨"B", 3⟩, ⟨"C", 4⟩], 0⟩, ⟨[⟨"A", 5⟩, ⟨"D", 6⟩], 0⟩]⟩
        = ["A", "B", "C", "D"] := by
  refine ⟨fun quote => ⟨?_, ?_, ?_, ?_, ?_, ?_, ?_, ?_⟩, by decide⟩
  · exact filter_isFirstOccurrence_eq _
  · exact filter_isFirstOccurrence_nodup _
  · intro n
    unfold PricingTable.dynamicColumnNames
    rw [mem_filter_isFirstOccurrence, mem_costNames]
  · exact filter_sublist _ _
  · exact filter_isFirstOccurrence_pairwise _
  · simp [PricingTable.dynamicColumns, PricingTable.dynamicColumn, Function.comp_def]
  · simp [PricingTable.dynamicColumns, PricingTable.dynamicColumn, Function.comp_def]
  · simp [PricingTable.dynamicColumns, PricingTable.dynamicColumn, Function.comp_def]

end PricingTab

namespace PricingTab

/-! ## Arithmetic of JavaScript numbers -/

namespace JSNum

theorem ofNat_eq_fin (n : ℕ) : (OfNat.ofNat n : JSNum) = fin (n : ℚ) := rfl

theorem add_eq (x y : JSNum) : x + y = add x y := rfl

theorem sub_eq (x y : JSNum) : x - y = sub x y := rfl

theorem div_eq (x y : JSNum) : x / y = div x y := rfl

@[simp] theorem fin_add_fin (a b : ℚ) : fin a + fin b = fin (a + b) := rfl

@[simp] theorem fin_sub_fin (a b : ℚ) : fin a - fin b = fin (a - b) := by
  show add (fin a) (neg (fin b)) = fin (a - b)
  unfold neg
  by_cases hb : b = 0
  · simp [hb, add]
  · simp [hb, add, sub_eq_add_neg]

theorem fin_div_fin (a b : ℚ) (ha : a ≠ 0) (hb : b ≠ 0) : fin a / fin b = fin (a / b) := by
  show div (fin a) (fin b) = fin (a / b)
  simp [div, isNaN, isInf, isZero, ha, hb]

/-- A number has a rational value exactly when it is finite. -/
theorem toRat?_eq_some_iff (x : JSNum) (a : ℚ) :
    x.toRat? = some a ↔ x = fin a ∨ (x = negZero ∧ a = 0) := by
  cases x <;> simp [toRat?, eq_comm]

theorem isFinite_iff_toRat? (x : JSNum) : x.isFinite = true ↔ ∃ a, x.toRat? = some a := by
  cases x <;> simp [isFinite, toRat?]

/-- Addition of finite numbers is addition of their values. -/
theorem toRat?_add {x y : JSNum} {a b : ℚ} (hx : x.toRat? = some a) (hy : y.toRat? = some b) :
    (x + y).toRat? = some (a + b) := by
  rw [toRat?_eq_some_iff] at hx hy
  rcases hx with rfl | ⟨rfl, rfl⟩ <;> rcases hy with rfl | ⟨rfl, rfl⟩ <;>
    simp [add_eq, add, toRat?]

/-- Negation of a finite number negates its value. -/
theorem toRat?_neg {x : JSNum} {a : ℚ} (hx : x.toRat? = some a) :
    (neg x).toRat? = some (-a) := by
  rw [toRat?_eq_some_iff] at hx
  rcases hx with rfl | ⟨rfl, rfl⟩
  · by_cases ha : a = 0 <;> simp [neg, toRat?, ha]
  · simp [neg, toRat?]

/-- Subtraction of finite numbers is subtraction of their values. -/
theorem toRat?_sub {x y : JSNum} {a b : ℚ} (hx : x.toRat? = some a) (hy : y.toRat? = some b) :
    (x - y).toRat? = some (a - b) := by
  have h := toRat?_add hx (toRat?_neg hy)
  rw [sub_eq_add_neg]
  exact h

/-- Division of finite numbers by a non-zero divisor is division of their values. -/
theorem toRat?_div {x y : JSNum} {a b : ℚ} (hx : x.toRat? = some a) (hy : y.toRat? = some b)
    (hb : b ≠ 0) : (x / y).toRat? = some (a / b) := by
  rw [toRat?_eq_some_iff] at hx hy
  rcases hy with rfl | ⟨rfl, rfl⟩
  · rcases hx with rfl | ⟨rfl, rfl⟩
    · by_cases ha : a = 0
      · subst ha
        by_cases hneg : b < 0 <;>
          simp [div_eq, div, isNaN, isInf, isZero, isNeg, signedZero, hb, hneg, toRat?]
      · simp [div_eq, div, isNaN, isInf, isZero, ha, hb, toRat?]
    · by_cases hneg : b < 0 <;>
        simp [div_eq, div, isNaN, isInf, isZero, isNeg, signedZero, hb, hneg, toRat?]
  · exact absurd rfl hb

/-- The zeros are `+0` and `-0`. -/
theorem isZero_iff (y : JSNum) : y.isZero = true ↔ y = fin 0 ∨ y = negZero := by
  cases y <;> simp [isZero]

/-- A finite number divided by a zero: the quotient is `NaN` for a zero dividend and an
infinity, signed by the two sign bits, otherwise. -/
theorem div_zero_of_finite {x y : JSNum} {a : ℚ} (hx : x.toRat? = some a)
    (hy : y.isZero = true) :
    (a = 0 → x / y = nan) ∧ (a ≠ 0 → x / y = signedInf (xor x.isNeg y.isNeg)) := by
  rw [toRat?_eq_some_iff] at hx
  rw [isZero_iff] at hy
  rcases hx with rfl | ⟨rfl, rfl⟩ <;> rcases hy with rfl | rfl
  all_goals
    constructor
    all_goals
      intro ha
      simp [div_eq, div, isNaN, isInf, isZero, ha] at *

/-- No division by a zero gives a finite number. -/
theorem div_zero_not_finite (x y : JSNum) (hy : y.isZero = true) :
    (x / y).isFinite = false := by
  rw [isZero_iff] at hy
  rcases hy with rfl | rfl
  all_goals
    cases x with
    | fin a =>
      by_cases ha : a = 0
      · simp [div_eq, div, isNaN, isInf, isZero, ha, isFinite]
      · by_cases hneg : a < 0 <;>
          simp [div_eq, div, isNaN, isInf, isZero, isNeg, ha, hneg, signedInf, isFinite]
    | negZero => simp [div_eq, div, isNaN, isInf, isZero, isFinite]
    | posInf => simp [div_eq, div, isNaN, isInf, isNeg, signedInf, isFinite]
    | negInf => simp [div_eq, div, isNaN, isInf, isNeg, signedInf, isFinite]
    | nan => simp [div_eq, div, isNaN, isFinite]

end JSNum

end PricingTab

namespace PricingTab

/-! ## Columns -/

/-- The accessor of a dynamic column finds the first cost of its name. -/
theorem dynamicColumn_accessorFn_first (n : String) (pre post : List Cost) (c : Cost) (h : JSNum)
    (hc : c.name = n) (hpre : ∀ d ∈ pre, d.name ≠ n) :
    (PricingTable.dynamicColumn n).accessorFn ⟨pre ++ c :: post, h⟩ = some c.value := by
  have hnone : pre.find? (fun cost => cost.name == n) = none := by
    rw [List.find?_eq_none]
    intro d hd
    simpa using hpre d hd
  simp [PricingTable.dynamicColumn, List.find?_append, hnone, hc]

/-- The accessor of a dynamic column is `undefined` exactly when the product has no cost of
its name. -/
theorem dynamicColumn_accessorFn_eq_none (n : String) (p : Product) :
    (PricingTable.dynamicColumn n).accessorFn p = none ↔ ∀ d ∈ p.costs, d.name ≠ n := by
  simp [PricingTable.dynamicColumn]

/-- A product with a cost of the column's name has a first such cost. -/
theorem exists_first_cost (n : String) (costs : List Cost) (h : ∃ d ∈ costs, d.name = n) :
    ∃ pre c post, costs = pre ++ c :: post ∧ c.name = n ∧ ∀ d ∈ pre, d.name ≠ n := by
  induction costs with
  | nil => simp at h
  | cons x xs ih =>
    by_cases hx : x.name = n
    · exact ⟨[], x, xs, rfl, hx, by simp⟩
    · have h2 : ∃ d ∈ xs, d.name = n := by
        obtain ⟨d, hd, hdn⟩ := h
        rcases List.mem_cons.1 hd with rfl | hd
        · exact absurd hdn hx
        · exact ⟨d, hd, hdn⟩
      obtain ⟨pre, c, post, hxs, hc, hpre⟩ := ih h2
      refine ⟨x :: pre, c, post, by simp [hxs], hc, ?_⟩
      intro d hd
      rcases List.mem_cons.1 hd with rfl | hd
      · exact hx
      · exact hpre d hd

/-! ## C2 -/

/-- C2: every dynamic column derived from a quote is the column of one of the derived names
`n`, and on every product its accessor returns the value of the first cost named `n` in the
product's cost list when there is one, and `undefined` (here `none`) when the product has no
cost named `n`; it is a total function, `undefined` on a product with an empty cost list. -/
theorem dynamicColumn_accessorFn_lookup (quote : Quote) (column : ColumnDef)
    (hcol : column ∈ PricingTable.dynamicColumns quote) :
    ∃ n, n ∈ PricingTable.dynamicColumnNames quote ∧ column.costName = some n ∧
      column.id = "dynamic-cost-" ++ n ∧
      ∀ p : Product,
        (∀ pre c post, p.costs = pre ++ c :: post → c.name = n → (∀ d ∈ pre, d.name ≠ n) →
            column.accessorFn p = some c.value)
        ∧ ((∃ d ∈ p.costs, d.name = n) →
            ∃ c ∈ p.costs, c.name = n ∧ column.accessorFn p = some c.value)
        ∧ ((∀ d ∈ p.costs, d.name ≠ n) → column.accessorFn p = none)
        ∧ (p.costs = [] → column.accessorFn p = none) := by
  unfold PricingTable.dynamicColumns at hcol
  obtain ⟨n, hn, rfl⟩ := List.mem_map.1 hcol
  refine ⟨n, hn, rfl, rfl, fun p => ⟨?_, ?_, ?_, ?_⟩⟩
  · intro pre c post hp hc hpre
    obtain ⟨costs, hours⟩ := p
    simp only at hp
    subst hp
    exact dynamicColumn_accessorFn_first n pre post c hours hc hpre
  · intro h
    obtain ⟨pre, c, post, hp, hc, hpre⟩ := exists_first_cost n p.costs h
    obtain ⟨costs, hours⟩ := p
    simp only at hp
    subst hp
    exact ⟨c, by simp, hc, dynamicColumn_accessorFn_first n pre post c hours hc hpre⟩
  · intro h
    exact (dynamicColumn_accessorFn_eq_none n p).2 h
  · intro h
    refine (dynamicColumn_accessorFn_eq_none n p).2 ?_
    rw [h]
    simp

/-- C2 at the sample quote: the column of `shipping` reads 10 on the first product, takes the
first of two costs of that name, and is `undefined` on a product without costs. -/
theorem dynamicColumn_accessorFn_lookup_witness :
    PricingTable.dynamicColumn "shipping" ∈ PricingTable.dynamicColumns sampleQuote
    ∧ (PricingTable.dynamicColumn "shipping").accessorFn
        ⟨[⟨"packaging", 5⟩, ⟨"shipping", 10⟩, ⟨"shipping", 7⟩], 2⟩ = some 10
    ∧ (PricingTable.dynamicColumn "shipping").accessorFn ⟨[⟨"packaging", 5⟩], 2⟩ = none
    ∧ (PricingTable.dynamicColumn "shipping").accessorFn ⟨[], 0⟩ = none := by
  have hmem : PricingTable.dynamicColumn "shipping" ∈ PricingTable.dynamicColumns sampleQuote := by
    have hnames : PricingTable.dynamicColumnNames sampleQuote = ["shipping", "packaging"] := by
      decide
    simp [PricingTable.dynamicColumns, hnames]
  obtain ⟨n, _, hname, _, hacc⟩ :=
    dynamicColumn_accessorFn_lookup sampleQuote (PricingTable.dynamicColumn "shipping") hmem
  have hn : n = "shipping" := by
    simp only [PricingTable.dynamicColumn, Option.some.injEq] at hname
    exact hname.symm
  subst hn
  refine ⟨hmem, ?_, ?_, ?_⟩
  · exact (hacc ⟨[⟨"packaging", 5⟩, ⟨"shipping", 10⟩, ⟨"shipping", 7⟩], 2⟩).1
      [⟨"packaging", 5⟩] ⟨"shipping", 10⟩ [⟨"shipping", 7⟩] rfl rfl (by decide)
  · exact (hacc ⟨[⟨"packaging", 5⟩], 2⟩).2.2.1 (by decide)
  · exact (hacc ⟨[], 0⟩).2.2.2 rfl

end PricingTab

namespace PricingTab

/-! ## Aggregation -/

/-- The id of a dynamic column determines its cost name. -/
theorem dynamic_cost_id_injective {a b : String}
    (h : "dynamic-cost-" ++ a = "dynamic-cost-" ++ b) : a = b := by
  have h2 := congrArg String.data h
  simp only [String.data_append] at h2
  exact String.ext (List.append_cancel_left h2)

/-- A search finds the only element that satisfies the predicate. -/
theorem find?_eq_some_of_unique {α : Type} (p : α → Bool) (l : List α) (c : α)
    (hc : c ∈ l) (hpc : p c = true) (huniq : ∀ x ∈ l, p x = true → x = c) :
    l.find? p = some c := by
  cases hfind : l.find? p with
  | none =>
    rw [List.find?_eq_none] at hfind
    exact absurd hpc (hfind c hc)
  | some x =>
    rw [huniq x (List.mem_of_find?_eq_some hfind) (List.find?_some hfind)]

/-- The columns of the table are the imported ones and the dynamic ones. -/
theorem mem_columns (imported : PricingTable.ImportedColumns) (quote : Quote) (c : ColumnDef) :
    c ∈ PricingTable.columns imported quote ↔
      c ∈ imported.all ∨ c ∈ PricingTable.dynamicColumns quote := by
  simp only [PricingTable.columns, PricingTable.ImportedColumns.all, List.mem_append,
    List.mem_singleton]
  tauto

/-- The table finds the dynamic column of a derived name under its id, when no imported
column has that id. -/
theorem getColumn_dynamic (imported : PricingTable.ImportedColumns) (quote : Quote) (n : String)
    (hn : n ∈ PricingTable.dynamicColumnNames quote)
    (hids : ∀ c ∈ imported.all, c.id ≠ "dynamic-cost-" ++ n) :
    (PricingTable.table imported quote).getColumn ("dynamic-cost-" ++ n)
      = some (PricingTable.dynamicColumn n) := by
  unfold Table.getColumn
  apply find?_eq_some_of_unique
  · rw [List.mem_reverse]
    show PricingTable.dynamicColumn n ∈ PricingTable.columns imported quote
    rw [mem_columns]
    exact Or.inr (List.mem_map.2 ⟨n, hn, rfl⟩)
  · simp [PricingTable.dynamicColumn]
  · intro x hx hid
    rw [List.mem_reverse] at hx
    have hx2 : x ∈ PricingTable.columns imported quote := hx
    rw [mem_columns] at hx2
    have hid2 : x.id = "dynamic-cost-" ++ n := by simpa using hid
    rcases hx2 with hx2 | hx2
    · exact absurd hid2 (hids x hx2)
    · obtain ⟨m, _, rfl⟩ := List.mem_map.1 hx2
      have hm : m = n := dynamic_cost_id_injective hid2
      rw [hm]

/-- The `sum` aggregation over a column that the table finds is the left-to-right sum, from
0, of the accessor's values with `undefined` counted as 0. -/
theorem sum_eq_foldl (table : Table) (columnId : String) (column : ColumnDef)
    (hcol : table.getColumn columnId = some column) (rows : List Product) :
    table.sum columnId rows
      = (rows.map (fun p => (column.accessorFn p).getD 0)).foldl (fun s v => s + v) 0 := by
  unfold Table.sum
  rw [List.foldl_map]
  congr 1
  funext s p
  simp only [Table.getValue, hcol, Option.some_bind]
  cases column.accessorFn p <;> rfl

/-- Adding a number other than `-0` to `+0` gives that number. -/
theorem zero_add_of_ne_negZero (v : JSNum) (hv : v ≠ JSNum.negZero) : (0 : JSNum) + v = v := by
  cases v <;> simp_all [JSNum.add_eq, JSNum.add, JSNum.ofNat_eq_fin]

/-- Adding `+0` to a number other than `-0` gives that number. -/
theorem add_zero_of_ne_negZero (v : JSNum) (hv : v ≠ JSNum.negZero) : v + (0 : JSNum) = v := by
  cases v <;> simp_all [JSNum.add_eq, JSNum.add, JSNum.ofNat_eq_fin]

end PricingTab

namespace PricingTab

/-- The aggregate of a dynamic column over the table of a quote, when no imported column has
its id. -/
theorem aggregate_dynamic (imported : PricingTable.ImportedColumns) (quote : Quote) (n : String)
    (hn : n ∈ PricingTable.dynamicColumnNames quote)
    (hids : ∀ c ∈ imported.all, c.id ≠ "dynamic-cost-" ++ n) :
    TotalsTable.aggregate (PricingTable.table imported quote) ("dynamic-cost-" ++ n)
      = some ((quote.products.map
          (fun p => ((PricingTable.dynamicColumn n).accessorFn p).getD 0)).foldl
          (fun s v => s + v) 0) := by
  have hcol := getColumn_dynamic imported quote n hn hids
  have hsum := sum_eq_foldl (PricingTable.table imported quote) ("dynamic-cost-" ++ n)
    (PricingTable.dynamicColumn n) hcol quote.products
  simp only [TotalsTable.aggregate, hcol, Table.getAggregationFn, PricingTable.dynamicColumn,
    Table.getCoreRowModel, Option.bind_eq_bind, Option.some_bind, Option.pure_def]
  simp only [PricingTable.dynamicColumn] at hsum
  exact congrArg some hsum

/-- A derived name comes from a product: a quote without products has no dynamic column. -/
theorem products_ne_nil_of_mem_dynamicColumnNames (quote : Quote) (n : String)
    (hn : n ∈ PricingTable.dynamicColumnNames quote) : quote.products ≠ [] := by
  intro hnil
  unfold PricingTable.dynamicColumnNames at hn
  rw [mem_filter_isFirstOccurrence, mem_costNames, hnil] at hn
  obtain ⟨p, hp, _⟩ := hn
  simp at hp

/-- On a quote without products the table has no column under a dynamic id that no imported
column bears, and `aggregate` throws there. -/
theorem aggregate_dynamic_empty (imported : PricingTable.ImportedColumns) (n : String)
    (hids : ∀ c ∈ imported.all, c.id ≠ "dynamic-cost-" ++ n) :
    TotalsTable.aggregate (PricingTable.table imported ⟨[]⟩) ("dynamic-cost-" ++ n) = none := by
  have hcol : (PricingTable.table imported ⟨[]⟩).getColumn ("dynamic-cost-" ++ n) = none := by
    unfold Table.getColumn
    rw [List.find?_eq_none]
    intro x hx
    rw [List.mem_reverse] at hx
    have hx2 : x ∈ PricingTable.columns imported ⟨[]⟩ := hx
    rw [mem_columns] at hx2
    rcases hx2 with hx2 | hx2
    · simpa using hids x hx2
    · have hnone : PricingTable.dynamicColumns ⟨[]⟩ = [] := rfl
      rw [hnone] at hx2
      simp at hx2
  unfold TotalsTable.aggregate
  rw [hcol]
  rfl

/-! ## C3 -/

/-- C3, refuted as stated: for an empty product list no total of a dynamic cost column is 0.
`PricingTable` derives no dynamic column, the table has no column under a dynamic id, so
`TotalsTable.aggregate` throws for it (`none`), and `TotalsTable` does not render. -/
theorem aggregate_dynamic_column_empty_quote_counterexample :
    (PricingTable.dynamicColumns ⟨[]⟩).map (fun column => column.id) = []
    ∧ (PricingTable.table sampleColumns ⟨[]⟩).getColumn ("dynamic-cost-" ++ "shipping") = none
    ∧ TotalsTable.aggregate (PricingTable.table sampleColumns ⟨[]⟩)
        ("dynamic-cost-" ++ "shipping") = none
    ∧ TotalsTable ⟨[]⟩ (PricingTable.table sampleColumns ⟨[]⟩) TotalsTableState.initial
        = none := by
  have hcol : (PricingTable.table sampleColumns ⟨[]⟩).getColumn
      ("dynamic-cost-" ++ "shipping") = none := by
    simp [Table.getColumn, PricingTable.table, PricingTable.columns, sampleColumns,
      PricingTable.dynamicColumns, PricingTable.dynamicColumnNames, costNames, filter]
  refine ⟨rfl, hcol, ?_, ?_⟩
  · unfold TotalsTable.aggregate
    rw [hcol]
    rfl
  · simp [TotalsTable, TotalsTable.dynamicCostIds]

/-- C3, amended: for every quote and every dynamic cost column `n` derived from it (no imported
column bearing the id `dynamic-cost-n`), the total that the `sum` aggregation gives for the
column id over the core rows, both in `TotalsTable.aggregate` and in the footer of the dynamic
column, is the left-to-right sum, from 0, over the products of the accessor's value, with 0 for
every product on which the accessor is `undefined`; a cost that only one of three products has
totals to the value it has there. Such a column exists only for a non-empty product list: for
an empty one `aggregate` finds no column under a dynamic id. -/
theorem aggregate_dynamic_column_sum :
    (∀ (imported : PricingTable.ImportedColumns) (quote : Quote) (n : String),
      n ∈ PricingTable.dynamicColumnNames quote →
      (∀ c ∈ imported.all, c.id ≠ "dynamic-cost-" ++ n) →
      TotalsTable.aggregate (PricingTable.table imported quote) ("dynamic-cost-" ++ n)
        = some ((quote.products.map
            (fun p => ((PricingTable.dynamicColumn n).accessorFn p).getD 0)).foldl
            (fun s v => s + v) 0)
      ∧ PricingTable.dynamicColumnFooter (PricingTable.table imported quote) n
        = TotalsTable.aggregate (PricingTable.table imported quote) ("dynamic-cost-" ++ n)
      ∧ quote.products ≠ [])
    ∧ (∀ (imported : PricingTable.ImportedColumns) (p₁ p₂ p₃ : Product) (n : String)
        (v : JSNum),
        (∀ c ∈ imported.all, c.id ≠ "dynamic-cost-" ++ n) →
        v ≠ JSNum.negZero →
        [(PricingTable.dynamicColumn n).accessorFn p₁,
          (PricingTable.dynamicColumn n).accessorFn p₂,
          (PricingTable.dynamicColumn n).accessorFn p₃] ∈
          [[some v, none, none], [none, some v, none], [none, none, some v]] →
        TotalsTable.aggregate (PricingTable.table imported ⟨[p₁, p₂, p₃]⟩)
          ("dynamic-cost-" ++ n) = some v)
    ∧ (∀ (imported : PricingTable.ImportedColumns) (n : String),
        (∀ c ∈ imported.all, c.id ≠ "dynamic-cost-" ++ n) →
        n ∉ PricingTable.dynamicColumnNames ⟨[]⟩
        ∧ TotalsTable.aggregate (PricingTable.table imported ⟨[]⟩) ("dynamic-cost-" ++ n)
            = none) := by
  refine ⟨?_, ?_, ?_⟩
  · intro imported quote n hn hids
    have hagg := aggregate_dynamic imported quote n hn hids
    refine ⟨hagg, ?_, products_ne_nil_of_mem_dynamicColumnNames quote n hn⟩
    rw [hagg]
    have hcol := getColumn_dynamic imported quote n hn hids
    have hsum := sum_eq_foldl (PricingTable.table imported quote) ("dynamic-cost-" ++ n)
      (PricingTable.dynamicColumn n) hcol quote.products
    simp only [PricingTable.dynamicColumnFooter, Table.getAggregationFn,
      PricingTable.dynamicColumn, Table.getCoreRowModel, Option.map_some']
    simp only [PricingTable.dynamicColumn] at hsum
    exact congrArg some hsum
  · intro imported p₁ p₂ p₃ n v hids hv hacc
    have hex : ∃ p ∈ [p₁, p₂, p₃], (PricingTable.dynamicColumn n).accessorFn p = some v := by
      simp only [List.mem_cons, List.cons.injEq, and_true, List.mem_singleton,
        List.not_mem_nil, or_false] at hacc
      rcases hacc with ⟨h, _, _⟩ | ⟨_, h, _⟩ | ⟨_, _, h⟩
      · exact ⟨p₁, by simp, h⟩
      · exact ⟨p₂, by simp, h⟩
      · exact ⟨p₃, by simp, h⟩
    have hn : n ∈ PricingTable.dynamicColumnNames ⟨[p₁, p₂, p₃]⟩ := by
      obtain ⟨p, hp, hpv⟩ := hex
      unfold PricingTable.dynamicColumnNames
      rw [mem_filter_isFirstOccurrence, mem_costNames]
      simp only [PricingTable.dynamicColumn, Option.map_eq_some'] at hpv
      obtain ⟨c, hc, _⟩ := hpv
      have hname := List.find?_some hc
      exact ⟨p, hp, c, List.mem_of_find?_eq_some hc, by simpa using hname⟩
    rw [aggregate_dynamic imported ⟨[p₁, p₂, p₃]⟩ n hn hids]
    have h0 : (0 : JSNum) + 0 = 0 := by simp [JSNum.ofNat_eq_fin]
    simp only [List.mem_cons, List.cons.injEq, and_true, List.mem_singleton,
      List.not_mem_nil, or_false] at hacc
    rcases hacc with ⟨h1, h2, h3⟩ | ⟨h1, h2, h3⟩ | ⟨h1, h2, h3⟩ <;>
      simp only [List.map_cons, List.map_nil, List.foldl_cons, List.foldl_nil, h1, h2, h3,
        Option.getD_some, Option.getD_none, h0, zero_add_of_ne_negZero v hv,
        add_zero_of_ne_negZero v hv]
  · intro imported n hids
    refine ⟨?_, aggregate_dynamic_empty imported n hids⟩
    intro hn
    exact products_ne_nil_of_mem_dynamicColumnNames ⟨[]⟩ n hn rfl

/-- C3, amended, at the sample quotes: shipping totals to 10 + 8 = 18, and the packaging cost
that only the second of three products has totals to 5. -/
theorem aggregate_dynamic_column_sum_witness :
    "shipping" ∈ PricingTable.dynamicColumnNames sampleQuote
    ∧ (∀ c ∈ sampleColumns.all, c.id ≠ "dynamic-cost-" ++ "shipping")
    ∧ TotalsTable.aggregate (PricingTable.table sampleColumns sampleQuote)
        ("dynamic-cost-" ++ "shipping") = some 18
    ∧ PricingTable.dynamicColumnFooter (PricingTable.table sampleColumns sampleQuote)
        "shipping" = some 18
    ∧ TotalsTable.aggregate (PricingTable.table sampleColumns sampleQuoteThree)
        ("dynamic-cost-" ++ "packaging") = some 5 := by
  have hmem : "shipping" ∈ PricingTable.dynamicColumnNames sampleQuote := by decide
  have hids : ∀ c ∈ sampleColumns.all, c.id ≠ "dynamic-cost-" ++ "shipping" := by decide
  have hids2 : ∀ c ∈ sampleColumns.all, c.id ≠ "dynamic-cost-" ++ "packaging" := by decide
  have h := aggregate_dynamic_column_sum.1 sampleColumns sampleQuote "shipping" hmem hids
  have h18 : TotalsTable.aggregate (PricingTable.table sampleColumns sampleQuote)
      ("dynamic-cost-" ++ "shipping") = some 18 := by
    rw [h.1]
    simp [sampleQuote, PricingTable.dynamicColumn, JSNum.ofNat_eq_fin]
    norm_num
  refine ⟨hmem, hids, h18, ?_, ?_⟩
  · rw [h.2.1, h18]
  · exact aggregate_dynamic_column_sum.2.1 sampleColumns
      ⟨[⟨"shipping", 10⟩], 2⟩ ⟨[⟨"shipping", 8⟩, ⟨"packaging", 5⟩], 3⟩ ⟨[], 1⟩ "packaging" 5
      hids2 (by decide) (by simp [PricingTable.dynamicColumn])

end PricingTab

namespace PricingTab

/-! ## The totals table -/

/-- The target selling price is the quotient that the code writes, whenever the total
variable costs can be aggregated. -/
theorem getCMTotalSellingPrice_eq (table : Table) (t c : JSNum)
    (ht : TotalsTable.aggregate table "totalVariableCosts" = some t) :
    TotalsTable.getCMTotalSellingPrice table c = some (t / (1 - c / 100)) := by
  simp [TotalsTable.getCMTotalSellingPrice, ht]

/-- The component renders exactly when the first product exists and both aggregates can be
computed, and then its cells are those of `ContributionRows` on these aggregates. -/
theorem TotalsTable_eq_some (quote : Quote) (table : Table) (state : TotalsTableState)
    (cells : TotalsTableCells) :
    TotalsTable quote table state = some cells ↔
      ∃ ids t h, TotalsTable.dynamicCostIds quote = some ids
        ∧ TotalsTable.aggregate table "totalVariableCosts" = some t
        ∧ TotalsTable.aggregate table "estimated_hours" = some h
        ∧ cells =
          { sellingPrice := t / (1 - state.contributionPercent / 100)
            manualPrice := state.manualPrice
            pricePerItem := state.pricePerItem
            dynamicCostIds := ids
            contributionRows := ContributionRows
              { marginInput := state.contributionPercent
                manualPrice := state.manualPrice
                pricePerItem := state.pricePerItem
                profitMarginTotalPrice := t / (1 - state.contributionPercent / 100)
                totalVariableCosts := t
                estimatedTotalHours := h } } := by
  unfold TotalsTable
  cases hids : TotalsTable.dynamicCostIds quote with
  | none => simp
  | some ids =>
    cases ht : TotalsTable.aggregate table "totalVariableCosts" with
    | none => simp [TotalsTable.getCMTotalSellingPrice, ht]
    | some t =>
      cases hh : TotalsTable.aggregate table "estimated_hours" with
      | none => simp [TotalsTable.getCMTotalSellingPrice, ht]
      | some h =>
        simp only [getCMTotalSellingPrice_eq table t _ ht, Option.bind_eq_bind,
          Option.some_bind, Option.pure_def, Option.some.injEq]
        constructor
        · intro hc
          exact ⟨ids, t, h, rfl, rfl, rfl, hc.symm⟩
        · rintro ⟨ids2, t2, h2, hi, ht2, hh2, hc⟩
          cases hi
          cases ht2
          cases hh2
          exact hc.symm

/-- The aggregates of the sample table. -/
theorem sampleTable_aggregates :
    TotalsTable.aggregate (sampleTable sampleQuote) "totalVariableCosts" = some 23
    ∧ TotalsTable.aggregate (sampleTable sampleQuote) "estimated_hours" = some 5
    ∧ TotalsTable.aggregate (sampleTable sampleQuoteHundred) "totalVariableCosts" = some 100
    ∧ TotalsTable.aggregate (sampleTable sampleQuoteHundred) "estimated_hours" = some 4
    ∧ TotalsTable.aggregate (sampleTable sampleQuoteIdle) "totalVariableCosts" = some 0
    ∧ TotalsTable.aggregate (sampleTable sampleQuoteIdle) "estimated_hours" = some 0 := by
  refine ⟨?_, ?_, ?_, ?_, ?_, ?_⟩ <;>
  · simp [TotalsTable.aggregate, sampleTable, PricingTable.table, PricingTable.columns,
      sampleColumns, sampleQuote, sampleQuoteHundred, sampleQuoteIdle, Table.getColumn,
      Table.getAggregationFn, Table.sum, Table.getValue, Table.getCoreRowModel,
      JSNum.ofNat_eq_fin]
    try norm_num

/-- The aggregates fix the rows of the totals table. -/
theorem TotalsTable_rows (quote : Quote) (table : Table) (state : TotalsTableState)
    (cells : TotalsTableCells) (t : JSNum)
    (hcells : TotalsTable quote table state = some cells)
    (ht : TotalsTable.aggregate table "totalVariableCosts" = some t) :
    ∃ h, TotalsTable.aggregate table "estimated_hours" = some h
      ∧ cells.sellingPrice = t / (1 - state.contributionPercent / 100)
      ∧ cells.contributionRows = ContributionRows
          { marginInput := state.contributionPercent
            manualPrice := state.manualPrice
            pricePerItem := state.pricePerItem
            profitMarginTotalPrice := t / (1 - state.contributionPercent / 100)
            totalVariableCosts := t
            estimatedTotalHours := h } := by
  obtain ⟨ids, t2, h, _, ht2, hh, rfl⟩ := (TotalsTable_eq_some _ _ _ _).1 hcells
  rw [ht] at ht2
  cases ht2
  exact ⟨h, hh, rfl, rfl⟩

/-- The component renders as soon as the quote has a product and the two aggregates exist. -/
theorem TotalsTable_renders (quote : Quote) (table : Table) (state : TotalsTableState)
    (t h : JSNum) (hq : quote.products ≠ [])
    (ht : TotalsTable.aggregate table "totalVariableCosts" = some t)
    (hh : TotalsTable.aggregate table "estimated_hours" = some h) :
    ∃ cells, TotalsTable quote table state = some cells := by
  obtain ⟨products⟩ := quote
  cases products with
  | nil => exact absurd rfl hq
  | cons p ps =>
    exact ⟨_, (TotalsTable_eq_some _ _ _ _).2
      ⟨p.costs.map (fun cost => "dynamic-cost-" ++ cost.name), t, h,
        by simp [TotalsTable.dynamicCostIds], ht, hh, rfl⟩⟩

/-- Dividing by 1 changes no number. -/
theorem div_one_eq (t : JSNum) : t / (1 : JSNum) = t := by
  cases t with
  | fin a =>
    by_cases ha : a = 0
    · subst ha
      simp [JSNum.div_eq, JSNum.div, JSNum.isNaN, JSNum.isInf, JSNum.isZero, JSNum.isNeg,
        JSNum.signedZero, JSNum.ofNat_eq_fin]
    · simp [JSNum.div_eq, JSNum.div, JSNum.isNaN, JSNum.isInf, JSNum.isZero,
        JSNum.ofNat_eq_fin, ha]
  | negZero =>
    simp [JSNum.div_eq, JSNum.div, JSNum.isNaN, JSNum.isInf, JSNum.isZero, JSNum.isNeg,
      JSNum.signedZero, JSNum.ofNat_eq_fin]
  | posInf =>
    simp [JSNum.div_eq, JSNum.div, JSNum.isNaN, JSNum.isInf, JSNum.isNeg, JSNum.signedInf,
      JSNum.ofNat_eq_fin]
  | negInf =>
    simp [JSNum.div_eq, JSNum.div, JSNum.isNaN, JSNum.isInf, JSNum.isNeg, JSNum.signedInf,
      JSNum.ofNat_eq_fin]
  | nan => simp [JSNum.div_eq, JSNum.div, JSNum.isNaN]

/-- The divisor of the target selling price at 0 percent is 1. -/
theorem one_sub_zero_div_hundred : (1 : JSNum) - 0 / 100 = 1 := by
  simp only [JSNum.ofNat_eq_fin]
  norm_num [JSNum.div_eq, JSNum.div, JSNum.isNaN, JSNum.isInf, JSNum.isZero, JSNum.isNeg,
    JSNum.signedZero]

/-- The figures of the end-to-end scenario, as JavaScript expressions: their values lie
within half a cent of 30.67, 7.67 and 1.53. -/
theorem sample_target_25_values :
    (∃ v, ((23 : JSNum) / (1 - 25 / 100)).toRat? = some v ∧ 30665 / 1000 < v ∧ v < 30675 / 1000)
    ∧ (∃ v, ((23 : JSNum) / (1 - 25 / 100) - 23).toRat? = some v
        ∧ 7665 / 1000 < v ∧ v < 7675 / 1000)
    ∧ (∃ v, (((23 : JSNum) / (1 - 25 / 100) - 23) / 5).toRat? = some v
        ∧ 1525 / 1000 < v ∧ v < 1535 / 1000) := by
  have hs : (23 : JSNum) / (1 - 25 / 100) = JSNum.fin (92 / 3) := by
    simp only [JSNum.ofNat_eq_fin]
    norm_num [JSNum.fin_div_fin]
  have hc : (23 : JSNum) / (1 - 25 / 100) - 23 = JSNum.fin (23 / 3) := by
    rw [hs]
    simp only [JSNum.ofNat_eq_fin]
    norm_num
  have hh : ((23 : JSNum) / (1 - 25 / 100) - 23) / 5 = JSNum.fin (23 / 15) := by
    rw [hc]
    simp only [JSNum.ofNat_eq_fin]
    norm_num [JSNum.fin_div_fin]
  rw [hh, hc, hs]
  refine ⟨⟨92 / 3, rfl, ?_, ?_⟩, ⟨23 / 3, rfl, ?_, ?_⟩, ⟨23 / 15, rfl, ?_, ?_⟩⟩ <;> norm_num

/-! ## C4 -/

/-- C4: whenever the total variable costs aggregate to `t`, `getCMTotalSellingPrice` returns,
for every target percent `c`, the quotient `t / (1 - c / 100)` of JavaScript arithmetic, and
this is the selling price that `TotalsTable` shows; at 0 percent it is `t` itself. -/
theorem getCMTotalSellingPrice_formula (table : Table) (t c : JSNum)
    (ht : TotalsTable.aggregate table "totalVariableCosts" = some t) :
    TotalsTable.getCMTotalSellingPrice table c = some (t / (1 - c / 100))
    ∧ TotalsTable.getCMTotalSellingPrice table 0 = some t
    ∧ ∀ (quote : Quote) (state : TotalsTableState) (cells : TotalsTableCells),
        TotalsTable quote table state = some cells →
        cells.sellingPrice = t / (1 - state.contributionPercent / 100) := by
  refine ⟨getCMTotalSellingPrice_eq table t c ht, ?_, ?_⟩
  · rw [getCMTotalSellingPrice_eq table t 0 ht, one_sub_zero_div_hundred, div_one_eq]
  · intro quote state cells hcells
    obtain ⟨_, _, hs, _⟩ := TotalsTable_rows quote table state cells t hcells ht
    exact hs

/-- C4 at the end-to-end scenario: total variable costs 23 and a target of 25 percent give the
selling price `23 / (1 - 25 / 100)`, within half a cent of 30.67; the contribution is within
half a cent of 7.67 and, over the 5 hours, the contribution per hour within half a cent of
1.53. At 0 percent the selling price is 23. -/
theorem getCMTotalSellingPrice_formula_witness :
    TotalsTable.aggregate (sampleTable sampleQuote) "totalVariableCosts" = some 23
    ∧ TotalsTable.getCMTotalSellingPrice (sampleTable sampleQuote) 25
        = some ((23 : JSNum) / (1 - 25 / 100))
    ∧ TotalsTable.getCMTotalSellingPrice (sampleTable sampleQuote) 0 = some 23
    ∧ ∃ cells, TotalsTable sampleQuote (sampleTable sampleQuote) ⟨25, 0, 0⟩ = some cells
        ∧ cells.sellingPrice = (23 : JSNum) / (1 - 25 / 100)
        ∧ (∃ v, cells.sellingPrice.toRat? = some v ∧ 30665 / 1000 < v ∧ v < 30675 / 1000)
        ∧ (∃ v, cells.contributionRows.targetContrib.toRat? = some v
            ∧ 7665 / 1000 < v ∧ v < 7675 / 1000)
        ∧ (∃ v, cells.contributionRows.targetPerHour.toRat? = some v
            ∧ 1525 / 1000 < v ∧ v < 1535 / 1000) := by
  have h := getCMTotalSellingPrice_formula (sampleTable sampleQuote) 23 25
    sampleTable_aggregates.1
  obtain ⟨cells, hcells⟩ := TotalsTable_renders sampleQuote (sampleTable sampleQuote)
    ⟨25, 0, 0⟩ 23 5 (by decide) sampleTable_aggregates.1 sampleTable_aggregates.2.1
  have hs := h.2.2 sampleQuote ⟨25, 0, 0⟩ cells hcells
  obtain ⟨hh, hhours, _, hrows⟩ := TotalsTable_rows sampleQuote (sampleTable sampleQuote)
    ⟨25, 0, 0⟩ cells 23 hcells sampleTable_aggregates.1
  rw [sampleTable_aggregates.2.1] at hhours
  cases hhours
  refine ⟨sampleTable_aggregates.1, h.1, h.2.1, cells, hcells, hs, ?_, ?_, ?_⟩
  · rw [hs]
    exact sample_target_25_values.1
  · rw [hrows]
    exact sample_target_25_values.2.1
  · rw [hrows]
    exact sample_target_25_values.2.2

/-! ## C5 -/

/-- C5, refuted as stated: with total variable costs 23 and a target of 100 percent,
`getCMTotalSellingPrice` returns `Infinity`, and `TotalsTable` renders with `Infinity` as the
selling price; with total variable costs 0 it returns `NaN`. Nothing is signalled. -/
theorem getCMTotalSellingPrice_hundred_counterexample :
    TotalsTable.getCMTotalSellingPrice (sampleTable sampleQuote) 100 = some JSNum.posInf
    ∧ (TotalsTable sampleQuote (sampleTable sampleQuote) ⟨100, 0, 0⟩).map
        (fun cells => cells.sellingPrice) = some JSNum.posInf
    ∧ TotalsTable.getCMTotalSellingPrice (sampleTable sampleQuoteIdle) 100
        = some JSNum.nan := by
  have hdiv : (23 : JSNum) / (1 - 100 / 100) = JSNum.posInf := by
    simp only [JSNum.ofNat_eq_fin]
    norm_num [JSNum.fin_div_fin, JSNum.div_eq, JSNum.div, JSNum.isNaN, JSNum.isInf,
      JSNum.isZero, JSNum.isNeg, JSNum.signedInf]
  have hdiv0 : (0 : JSNum) / (1 - 100 / 100) = JSNum.nan := by
    simp only [JSNum.ofNat_eq_fin]
    norm_num [JSNum.fin_div_fin, JSNum.div_eq, JSNum.div, JSNum.isNaN, JSNum.isInf,
      JSNum.isZero, JSNum.isNeg, JSNum.signedInf]
  refine ⟨?_, ?_, ?_⟩
  · rw [getCMTotalSellingPrice_eq _ 23 _ sampleTable_aggregates.1, hdiv]
  · have hcells : ∃ cells, TotalsTable sampleQuote (sampleTable sampleQuote) ⟨100, 0, 0⟩
        = some cells ∧ cells.sellingPrice = (23 : JSNum) / (1 - 100 / 100) :=
      ⟨_, (TotalsTable_eq_some _ _ _ _).2
        ⟨_, 23, 5, rfl, sampleTable_aggregates.1, sampleTable_aggregates.2.1, rfl⟩, rfl⟩
    obtain ⟨cells, hc, hs⟩ := hcells
    rw [hc, Option.map_some', hs, hdiv]
  · rw [getCMTotalSellingPrice_eq _ 0 _ sampleTable_aggregates.2.2.2.2.1, hdiv0]

/-- The divisor of the target selling price at 100 percent is `+0`. -/
theorem one_sub_hundred_div_hundred : (1 : JSNum) - 100 / 100 = JSNum.fin 0 := by
  simp only [JSNum.ofNat_eq_fin]
  norm_num [JSNum.fin_div_fin]

/-- C5, amended: when the target percent is 100 and the total variable costs aggregate to
`t`, `getCMTotalSellingPrice` returns the quotient of `t` by `+0` as a number and signals
nothing: `Infinity` for a positive `t`, `-Infinity` for a negative `t`, `NaN` for a zero or
`NaN`; it is never a finite number. -/
theorem getCMTotalSellingPrice_hundred (table : Table) (t : JSNum)
    (ht : TotalsTable.aggregate table "totalVariableCosts" = some t) :
    ∃ s, TotalsTable.getCMTotalSellingPrice table 100 = some s
      ∧ s.isFinite = false
      ∧ (∀ a, t.toRat? = some a → 0 < a → s = JSNum.posInf)
      ∧ (∀ a, t.toRat? = some a → a < 0 → s = JSNum.negInf)
      ∧ (t.toRat? = some 0 → s = JSNum.nan)
      ∧ (t = JSNum.posInf → s = JSNum.posInf)
      ∧ (t = JSNum.negInf → s = JSNum.negInf)
      ∧ (t = JSNum.nan → s = JSNum.nan) := by
  refine ⟨t / JSNum.fin 0, ?_, ?_, ?_, ?_, ?_, ?_, ?_, ?_⟩
  · rw [getCMTotalSellingPrice_eq table t _ ht, one_sub_hundred_div_hundred]
  · exact JSNum.div_zero_not_finite t _ (by simp [JSNum.isZero])
  · intro a ha hpos
    rw [(JSNum.div_zero_of_finite ha (by simp [JSNum.isZero])).2 (ne_of_gt hpos)]
    rw [JSNum.toRat?_eq_some_iff] at ha
    rcases ha with rfl | ⟨_, h0⟩
    · simp [JSNum.isNeg, JSNum.signedInf, not_lt.2 (le_of_lt hpos)]
    · exact absurd h0 (ne_of_gt hpos)
  · intro a ha hneg
    rw [(JSNum.div_zero_of_finite ha (by simp [JSNum.isZero])).2 (ne_of_lt hneg)]
    rw [JSNum.toRat?_eq_some_iff] at ha
    rcases ha with rfl | ⟨_, h0⟩
    · simp [JSNum.isNeg, JSNum.signedInf, hneg]
    · exact absurd h0 (ne_of_lt hneg)
  · intro ha
    exact (JSNum.div_zero_of_finite ha (by simp [JSNum.isZero])).1 rfl
  · rintro rfl
    simp [JSNum.div_eq, JSNum.div, JSNum.isNaN, JSNum.isInf, JSNum.isNeg, JSNum.signedInf]
  · rintro rfl
    simp [JSNum.div_eq, JSNum.div, JSNum.isNaN, JSNum.isInf, JSNum.isNeg, JSNum.signedInf]
  · rintro rfl
    simp [JSNum.div_eq, JSNum.div, JSNum.isNaN]

/-- C5, amended, at the sample quote: total variable costs 23 at a target of 100 percent give
the selling price `Infinity`. -/
theorem getCMTotalSellingPrice_hundred_witness :
    TotalsTable.aggregate (sampleTable sampleQuote) "totalVariableCosts" = some 23
    ∧ ∃ s, TotalsTable.getCMTotalSellingPrice (sampleTable sampleQuote) 100 = some s
        ∧ s.isFinite = false ∧ s = JSNum.posInf := by
  obtain ⟨s, hs, hfin, hpos, _⟩ :=
    getCMTotalSellingPrice_hundred (sampleTable sampleQuote) 23 sampleTable_aggregates.1
  exact ⟨sampleTable_aggregates.1, s, hs, hfin,
    hpos 23 (by simp [JSNum.ofNat_eq_fin, JSNum.toRat?]) (by norm_num)⟩

end PricingTab

namespace PricingTab

/-- The margin cells of the sample quote in the initial state. -/
theorem sampleTable_margins_initial :
    (TotalsTable sampleQuote (sampleTable sampleQuote) TotalsTableState.initial).map
        (fun cells => (cells.contributionRows.manualMargin,
          cells.contributionRows.perItemMargin))
      = some (JSNum.negInf, JSNum.negInf) := by
  have hcells : ∃ cells, TotalsTable sampleQuote (sampleTable sampleQuote)
      TotalsTableState.initial = some cells ∧ cells.contributionRows = ContributionRows
        { marginInput := 0, manualPrice := 0, pricePerItem := 0,
          profitMarginTotalPrice := (23 : JSNum) / (1 - 0 / 100),
          totalVariableCosts := 23, estimatedTotalHours := 5 } :=
    ⟨_, (TotalsTable_eq_some _ _ _ _).2
      ⟨_, 23, 5, rfl, sampleTable_aggregates.1, sampleTable_aggregates.2.1, rfl⟩, rfl⟩
  obtain ⟨cells, hc, hrows⟩ := hcells
  rw [hc, Option.map_some', hrows]
  simp only [ContributionRows, JSNum.ofNat_eq_fin]
  norm_num [JSNum.div_eq, JSNum.div, JSNum.isNaN, JSNum.isInf,
    JSNum.isZero, JSNum.isNeg, JSNum.signedInf]

/-- The cells of the idle quote (no costs, no hours) in the initial state. -/
theorem idleTable_cells_initial :
    (TotalsTable sampleQuoteIdle (sampleTable sampleQuoteIdle) TotalsTableState.initial).map
        (fun cells => cells.contributionRows) =
      some
        { targetContrib := JSNum.fin 0
          manualContrib := JSNum.fin 0
          perItemContrib := JSNum.fin 0
          targetMargin := 0
          manualMargin := JSNum.nan
          perItemMargin := JSNum.nan
          targetPerHour := JSNum.nan
          manualPerHour := JSNum.nan
          perItemPerHour := JSNum.nan } := by
  have hcells : ∃ cells, TotalsTable sampleQuoteIdle (sampleTable sampleQuoteIdle)
      TotalsTableState.initial = some cells ∧ cells.contributionRows = ContributionRows
        { marginInput := 0, manualPrice := 0, pricePerItem := 0,
          profitMarginTotalPrice := (0 : JSNum) / (1 - 0 / 100),
          totalVariableCosts := 0, estimatedTotalHours := 0 } :=
    ⟨_, (TotalsTable_eq_some _ _ _ _).2
      ⟨_, 0, 0, rfl, sampleTable_aggregates.2.2.2.2.1, sampleTable_aggregates.2.2.2.2.2, rfl⟩,
      rfl⟩
  obtain ⟨cells, hc, hrows⟩ := hcells
  rw [hc, Option.map_some', hrows]
  simp only [ContributionRows, JSNum.ofNat_eq_fin]
  norm_num [JSNum.fin_div_fin, JSNum.div_eq, JSNum.div, JSNum.isNaN, JSNum.isInf,
    JSNum.isZero, JSNum.isNeg, JSNum.signedInf, JSNum.signedZero]

end PricingTab

namespace PricingTab

/-! ## C6 -/

/-- C6: `ContributionRows` computes the three contribution figures by the one formula
selling price minus total variable costs, on the same `totalVariableCosts`: the target
selling price for the target scenario, the raw `manualPrice` and the raw `pricePerItem` for
the other two; for finite inputs the values are the differences. In `TotalsTable` the
common term is `aggregate('totalVariableCosts')` and the target selling price is
`getCMTotalSellingPrice()`. -/
theorem contributionRows_contribution_dollars :
    (∀ props : ContributionRowsProps,
      (ContributionRows props).targetContrib
          = props.profitMarginTotalPrice - props.totalVariableCosts
      ∧ (ContributionRows props).manualContrib = props.manualPrice - props.totalVariableCosts
      ∧ (ContributionRows props).perItemContrib
          = props.pricePerItem - props.totalVariableCosts)
    ∧ (∀ (props : ContributionRowsProps) (s m q t : ℚ),
        props.profitMarginTotalPrice.toRat? = some s → props.manualPrice.toRat? = some m →
        props.pricePerItem.toRat? = some q → props.totalVariableCosts.toRat? = some t →
        (ContributionRows props).targetContrib.toRat? = some (s - t)
        ∧ (ContributionRows props).manualContrib.toRat? = some (m - t)
        ∧ (ContributionRows props).perItemContrib.toRat? = some (q - t))
    ∧ (∀ (quote : Quote) (table : Table) (state : TotalsTableState) (cells : TotalsTableCells),
        TotalsTable quote table state = some cells →
        ∃ t s, TotalsTable.aggregate table "totalVariableCosts" = some t
          ∧ TotalsTable.getCMTotalSellingPrice table state.contributionPercent = some s
          ∧ cells.contributionRows.targetContrib = s - t
          ∧ cells.contributionRows.manualContrib = state.manualPrice - t
          ∧ cells.contributionRows.perItemContrib = state.pricePerItem - t) := by
  refine ⟨fun props => ⟨rfl, rfl, rfl⟩, ?_, ?_⟩
  · intro props s m q t hs hm hq ht
    exact ⟨JSNum.toRat?_sub hs ht, JSNum.toRat?_sub hm ht, JSNum.toRat?_sub hq ht⟩
  · intro quote table state cells hcells
    obtain ⟨ids, t, h, _, ht, _, rfl⟩ := (TotalsTable_eq_some _ _ _ _).1 hcells
    exact ⟨t, _, ht, getCMTotalSellingPrice_eq table t _ ht, rfl, rfl, rfl⟩

/-- C6 at the sample quote: with total variable costs 23, a target of 25 percent, a manual
price of 40 and a price per item of 30, the contributions are 92/3 - 23 = 23/3, 40 - 23 = 17
and 30 - 23 = 7. -/
theorem contributionRows_contribution_dollars_witness :
    ∃ cells, TotalsTable sampleQuote (sampleTable sampleQuote) ⟨25, 40, 30⟩ = some cells
      ∧ cells.contributionRows.targetContrib = JSNum.fin (23 / 3)
      ∧ cells.contributionRows.manualContrib = JSNum.fin 17
      ∧ cells.contributionRows.perItemContrib = JSNum.fin 7 := by
  obtain ⟨cells, hcells⟩ := TotalsTable_renders sampleQuote (sampleTable sampleQuote)
    ⟨25, 40, 30⟩ 23 5 (by decide) sampleTable_aggregates.1 sampleTable_aggregates.2.1
  obtain ⟨t, s, ht, hs, h1, h2, h3⟩ :=
    contributionRows_contribution_dollars.2.2 sampleQuote (sampleTable sampleQuote)
      ⟨25, 40, 30⟩ cells hcells
  have ht23 : t = 23 := by
    rw [sampleTable_aggregates.1] at ht
    exact (Option.some.inj ht).symm
  subst ht23
  rw [getCMTotalSellingPrice_eq _ 23 _ sampleTable_aggregates.1] at hs
  have hs2 : s = JSNum.fin (92 / 3) := by
    rw [← Option.some.inj hs]
    simp only [JSNum.ofNat_eq_fin]
    norm_num [JSNum.fin_div_fin]
  subst hs2
  refine ⟨cells, hcells, ?_, ?_, ?_⟩
  · rw [h1]
    simp only [JSNum.ofNat_eq_fin]
    norm_num
  · rw [h2]
    simp only [JSNum.ofNat_eq_fin]
    norm_num
  · rw [h3]
    simp only [JSNum.ofNat_eq_fin]
    norm_num

/-! ## The contribution footer -/

/-- Strict equality with `0` holds exactly for `+0` and `-0`. -/
theorem strictEq_zero (d : JSNum) : JSNum.strictEq d 0 = d.isZero := by
  cases d with
  | fin q =>
    simp only [JSNum.strictEq, JSNum.toRat?, JSNum.ofNat_eq_fin, JSNum.isZero]
    norm_num
  | negZero => simp [JSNum.strictEq, JSNum.toRat?, JSNum.ofNat_eq_fin, JSNum.isZero]
  | posInf => simp [JSNum.strictEq, JSNum.toRat?, JSNum.ofNat_eq_fin, JSNum.isZero]
  | negInf => simp [JSNum.strictEq, JSNum.toRat?, JSNum.ofNat_eq_fin, JSNum.isZero]
  | nan => simp [JSNum.strictEq, JSNum.toRat?, JSNum.ofNat_eq_fin, JSNum.isZero]

/-- The value that the footer hands to the formatter, by the zero test of the divisor. -/
theorem ContributionFooter_value (aggregate : Table → String → Option JSNum) (table : Table)
    (columnMeta : Option ContributionMeta) :
    (ContributionFooter aggregate table columnMeta).value
      = if (ContributionFooter.divisor aggregate table columnMeta).isZero = true then 0
        else ContributionFooter.contribution aggregate table
          / ContributionFooter.divisor aggregate table columnMeta := by
  simp only [ContributionFooter, strictEq_zero]

/-! ## C7 -/

/-- C7, evaluated on the code: the margin cells of the manual and per-item scenarios are the
unguarded quotients contribution / selling price. At a selling price of 0 they are never a
finite number; in the initial state (`manualPrice` and `pricePerItem` both 0) they are
`-Infinity` for the sample quote (total variable costs 23) and `NaN` for a quote without
costs. The sibling `ContributionFooter` gives 0 for the same contribution over a zero
divisor. -/
theorem contributionRows_margin_zero_price :
    (∀ props : ContributionRowsProps,
      (ContributionRows props).manualMargin
          = (props.manualPrice - props.totalVariableCosts) / props.manualPrice
      ∧ (ContributionRows props).perItemMargin
          = (props.pricePerItem - props.totalVariableCosts) / props.pricePerItem)
    ∧ (∀ marginInput s t h : JSNum,
        (ContributionRows ⟨marginInput, 0, 0, s, t, h⟩).manualMargin.isFinite = false
        ∧ (ContributionRows ⟨marginInput, 0, 0, s, t, h⟩).perItemMargin.isFinite = false)
    ∧ (TotalsTable sampleQuote (sampleTable sampleQuote) TotalsTableState.initial).map
        (fun cells => (cells.contributionRows.manualMargin,
          cells.contributionRows.perItemMargin))
      = some (JSNum.negInf, JSNum.negInf)
    ∧ (TotalsTable sampleQuoteIdle (sampleTable sampleQuoteIdle) TotalsTableState.initial).map
        (fun cells => (cells.contributionRows.manualMargin,
          cells.contributionRows.perItemMargin))
      = some (JSNum.nan, JSNum.nan)
    ∧ (ContributionFooter
        (fun _ column => if column = "contributionDollars" then some (JSNum.fin (-23))
          else some 0)
        (sampleTable sampleQuote) (some ⟨some "manualPrice", some "percent"⟩)).value = 0 := by
  have hz : (0 : JSNum).isZero = true := by simp [JSNum.ofNat_eq_fin, JSNum.isZero]
  refine ⟨fun props => ⟨rfl, rfl⟩, ?_, sampleTable_margins_initial, ?_, ?_⟩
  · intro marginInput s t h
    exact ⟨JSNum.div_zero_not_finite _ _ hz, JSNum.div_zero_not_finite _ _ hz⟩
  · have h := idleTable_cells_initial
    cases hc : TotalsTable sampleQuoteIdle (sampleTable sampleQuoteIdle)
        TotalsTableState.initial with
    | none => simp [hc] at h
    | some cells =>
      simp only [hc, Option.map_some', Option.some.injEq] at h
      simp [h]
  · rw [ContributionFooter_value]
    simp [ContributionFooter.divisor, ContributionFooter.divisorId, truthy, hz]

/-! ## C8 -/

/-- C8, evaluated on the code: the per-hour cells of the three scenarios are the unguarded
quotients contribution / `estimatedTotalHours`. At 0 hours they are never a finite number: for
a quote whose only product has no costs and no hours, in the initial state, all three are the
quotient 0 / 0, `NaN`, and with a manual price of 50 the manual cell is `Infinity`. The sibling
`ContributionFooter` gives 0 for the same contribution over a zero divisor. -/
theorem contributionRows_per_hour_zero_hours :
    (∀ props : ContributionRowsProps,
      (ContributionRows props).targetPerHour
          = (props.profitMarginTotalPrice - props.totalVariableCosts)
              / props.estimatedTotalHours
      ∧ (ContributionRows props).manualPerHour
          = (props.manualPrice - props.totalVariableCosts) / props.estimatedTotalHours
      ∧ (ContributionRows props).perItemPerHour
          = (props.pricePerItem - props.totalVariableCosts) / props.estimatedTotalHours)
    ∧ (∀ marginInput m q s t : JSNum,
        (ContributionRows ⟨marginInput, m, q, s, t, 0⟩).targetPerHour.isFinite = false
        ∧ (ContributionRows ⟨marginInput, m, q, s, t, 0⟩).manualPerHour.isFinite = false
        ∧ (ContributionRows ⟨marginInput, m, q, s, t, 0⟩).perItemPerHour.isFinite = false)
    ∧ (TotalsTable sampleQuoteIdle (sampleTable sampleQuoteIdle) TotalsTableState.initial).map
        (fun cells => (cells.contributionRows.targetPerHour,
          cells.contributionRows.manualPerHour, cells.contributionRows.perItemPerHour))
      = some (JSNum.nan, JSNum.nan, JSNum.nan)
    ∧ (ContributionRows ⟨0, 50, 0, 0, 0, 0⟩).manualPerHour = JSNum.posInf
    ∧ (ContributionFooter
        (fun _ column => if column = "contributionDollars" then some 50 else some 0)
        (sampleTable sampleQuoteIdle)
        (some ⟨some "estimated_hours", some "currency"⟩)).value = 0 := by
  have hz : (0 : JSNum).isZero = true := by simp [JSNum.ofNat_eq_fin, JSNum.isZero]
  refine ⟨fun props => ⟨rfl, rfl, rfl⟩, ?_, ?_, ?_, ?_⟩
  · intro marginInput m q s t
    exact ⟨JSNum.div_zero_not_finite _ _ hz, JSNum.div_zero_not_finite _ _ hz,
      JSNum.div_zero_not_finite _ _ hz⟩
  · have h := idleTable_cells_initial
    cases hc : TotalsTable sampleQuoteIdle (sampleTable sampleQuoteIdle)
        TotalsTableState.initial with
    | none => simp [hc] at h
    | some cells =>
      simp only [hc, Option.map_some', Option.some.injEq] at h
      simp [h]
  · simp only [ContributionRows, JSNum.ofNat_eq_fin]
    norm_num [JSNum.div_eq, JSNum.div, JSNum.isNaN, JSNum.isInf, JSNum.isZero, JSNum.isNeg,
      JSNum.signedInf]
  · rw [ContributionFooter_value]
    simp [ContributionFooter.divisor, ContributionFooter.divisorId, truthy, hz]

/-! ## C9 -/

/-- C9, refuted as stated: with total variable costs 100, a target of 20 percent and the
manual price set to the target selling price 125, the two contributions are both 25, but the
margin cell of the target scenario is the entered 20 while the margin cell of the manual
scenario is the quotient 25 / 125. -/
theorem manual_margin_differs_from_target_margin_counterexample :
    ∃ cells, TotalsTable sampleQuoteHundred (sampleTable sampleQuoteHundred) ⟨20, 125, 0⟩
        = some cells
      ∧ cells.sellingPrice = 125
      ∧ cells.manualPrice = cells.sellingPrice
      ∧ cells.contributionRows.targetContrib = 25
      ∧ cells.contributionRows.manualContrib = 25
      ∧ cells.contributionRows.targetMargin = 20
      ∧ cells.contributionRows.manualMargin = (25 : JSNum) / 125
      ∧ cells.contributionRows.manualMargin ≠ cells.contributionRows.targetMargin := by
  obtain ⟨cells, hcells⟩ := TotalsTable_renders sampleQuoteHundred
    (sampleTable sampleQuoteHundred) ⟨20, 125, 0⟩ 100 4 (by decide)
    sampleTable_aggregates.2.2.1 sampleTable_aggregates.2.2.2.1
  obtain ⟨h, _, hs, hrows⟩ := TotalsTable_rows _ _ _ _ 100 hcells sampleTable_aggregates.2.2.1
  have hm : cells.manualPrice = 125 := by
    obtain ⟨_, _, _, _, _, _, rfl⟩ := (TotalsTable_eq_some _ _ _ _).1 hcells
    rfl
  have hprice : (100 : JSNum) / (1 - 20 / 100) = 125 := by
    simp only [JSNum.ofNat_eq_fin]
    norm_num [JSNum.fin_div_fin]
  rw [hprice] at hs hrows
  refine ⟨cells, hcells, hs, by rw [hm, hs], ?_, ?_, ?_, ?_, ?_⟩
  · rw [hrows]
    simp only [ContributionRows, JSNum.ofNat_eq_fin]
    norm_num
  · rw [hrows]
    simp only [ContributionRows, JSNum.ofNat_eq_fin]
    norm_num
  · rw [hrows]
    rfl
  · rw [hrows]
    simp only [ContributionRows, JSNum.ofNat_eq_fin]
    norm_num
  · rw [hrows]
    simp only [ContributionRows, JSNum.ofNat_eq_fin]
    norm_num [JSNum.fin_div_fin]

/-- C9, amended: scenario symmetry of the computed figures. When `manualPrice` is set to the
target selling price, the manual scenario's contribution and contribution per hour are those
of the target scenario, and the manual margin cell is the quotient of that contribution by
that price. The margin cell of the target scenario is not computed: it is the entered
percent. -/
theorem manual_scenario_equals_target_at_target_price :
    (∀ props : ContributionRowsProps, props.manualPrice = props.profitMarginTotalPrice →
      (ContributionRows props).manualContrib = (ContributionRows props).targetContrib
      ∧ (ContributionRows props).manualPerHour = (ContributionRows props).targetPerHour
      ∧ (ContributionRows props).manualMargin
          = (ContributionRows props).manualContrib / props.manualPrice
      ∧ (ContributionRows props).targetMargin = props.marginInput)
    ∧ (∀ (quote : Quote) (table : Table) (state : TotalsTableState) (cells : TotalsTableCells)
        (t : JSNum),
        TotalsTable quote table state = some cells →
        TotalsTable.aggregate table "totalVariableCosts" = some t →
        state.manualPrice = t / (1 - state.contributionPercent / 100) →
        cells.manualPrice = cells.sellingPrice
        ∧ cells.contributionRows.manualContrib = cells.contributionRows.targetContrib
        ∧ cells.contributionRows.manualPerHour = cells.contributionRows.targetPerHour
        ∧ cells.contributionRows.manualMargin
            = cells.contributionRows.manualContrib / cells.manualPrice
        ∧ cells.contributionRows.targetMargin = state.contributionPercent) := by
  constructor
  · intro props hm
    simp only [ContributionRows, hm, and_self]
  · intro quote table state cells t hcells ht hm
    obtain ⟨h, _, hs, hrows⟩ := TotalsTable_rows _ _ _ _ t hcells ht
    have hmp : cells.manualPrice = state.manualPrice := by
      obtain ⟨_, _, _, _, _, _, rfl⟩ := (TotalsTable_eq_some _ _ _ _).1 hcells
      rfl
    rw [hrows, hs, hmp]
    refine ⟨hm, ?_, ?_, ?_, ?_⟩ <;> simp only [ContributionRows, hm]

/-- C9, amended, at total variable costs 100 and a target of 20 percent, with the manual price
set to the target selling price `100 / (1 - 20 / 100)`: the contributions and the per-hour
figures agree, and the target margin cell is the entered 20. -/
theorem manual_scenario_equals_target_at_target_price_witness :
    TotalsTable.aggregate (sampleTable sampleQuoteHundred) "totalVariableCosts" = some 100
    ∧ ∃ cells, TotalsTable sampleQuoteHundred (sampleTable sampleQuoteHundred)
          ⟨20, (100 : JSNum) / (1 - 20 / 100), 0⟩ = some cells
        ∧ cells.manualPrice = cells.sellingPrice
        ∧ cells.contributionRows.manualContrib = cells.contributionRows.targetContrib
        ∧ cells.contributionRows.manualPerHour = cells.contributionRows.targetPerHour
        ∧ cells.contributionRows.manualMargin
            = cells.contributionRows.manualContrib / cells.manualPrice
        ∧ cells.contributionRows.targetMargin = 20 := by
  obtain ⟨cells, hcells⟩ := TotalsTable_renders sampleQuoteHundred
    (sampleTable sampleQuoteHundred) ⟨20, (100 : JSNum) / (1 - 20 / 100), 0⟩ 100 4 (by decide)
    sampleTable_aggregates.2.2.1 sampleTable_aggregates.2.2.2.1
  have h := manual_scenario_equals_target_at_target_price.2 sampleQuoteHundred
    (sampleTable sampleQuoteHundred) ⟨20, (100 : JSNum) / (1 - 20 / 100), 0⟩ cells 100 hcells
    sampleTable_aggregates.2.2.1 rfl
  exact ⟨sampleTable_aggregates.2.2.1, cells, hcells, h.1, h.2.1, h.2.2.1, h.2.2.2.1,
    h.2.2.2.2⟩

/-! ## C10 -/

/-- A finite number of value 0 is a zero. -/
theorem isZero_of_toRat?_zero {x : JSNum} (hx : x.toRat? = some 0) : x.isZero = true := by
  rw [JSNum.toRat?_eq_some_iff] at hx
  rcases hx with rfl | ⟨rfl, _⟩ <;> simp [JSNum.isZero]

/-- C10: the margin cell of the target scenario is the slot `marginInput`, to which
`TotalsTable` passes an input showing the entered `contributionPercent`; no margin is
computed for it. This agrees with the definition of the contribution margin: by the formulas
of the specification over the rationals, for total variable costs `t ≠ 0` and a target percent
`c ≠ 100`, the selling price `s = t / (1 - c / 100)` has the margin `(s - t) / s = c / 100`.
At the initial percent 0 the code's own figures agree with it exactly: the selling price is
the finite non-zero `t` and the target contribution over the selling price is a zero. -/
theorem target_margin_cell_is_entered_percent :
    (∀ props : ContributionRowsProps, (ContributionRows props).targetMargin = props.marginInput)
    ∧ (∀ (quote : Quote) (table : Table) (state : TotalsTableState) (cells : TotalsTableCells),
        TotalsTable quote table state = some cells →
        cells.contributionRows.targetMargin = state.contributionPercent)
    ∧ (∀ t c : ℚ, t ≠ 0 → c ≠ 100 →
        contributionMarginFormula (targetSellingPriceFormula t c) t = c / 100)
    ∧ (∀ (quote : Quote) (table : Table) (state : TotalsTableState) (cells : TotalsTableCells)
        (t : JSNum) (a : ℚ),
        TotalsTable quote table state = some cells →
        TotalsTable.aggregate table "totalVariableCosts" = some t →
        t.toRat? = some a → a ≠ 0 → state.contributionPercent = 0 →
        cells.sellingPrice = t
        ∧ (cells.contributionRows.targetContrib / cells.sellingPrice).isZero = true) := by
  refine ⟨fun props => rfl, ?_, ?_, ?_⟩
  · intro quote table state cells hcells
    obtain ⟨ids, t, h, _, _, _, rfl⟩ := (TotalsTable_eq_some _ _ _ _).1 hcells
    rfl
  · intro t c ht hc
    have hd : 1 - c / 100 ≠ 0 := by
      intro h
      apply hc
      field_simp at h
      linarith
    have hq : ∀ d : ℚ, d ≠ 0 → (t / d - t) / (t / d) = 1 - d := by
      intro d hd0
      field_simp
      ring
    unfold contributionMarginFormula targetSellingPriceFormula
    rw [hq _ hd]
    ring
  · intro quote table state cells t a hcells ht ha hane hzero
    obtain ⟨h, _, hs, hrows⟩ := TotalsTable_rows _ _ _ _ t hcells ht
    rw [hzero, one_sub_zero_div_hundred, div_one_eq] at hs hrows
    rw [hrows, hs]
    refine ⟨rfl, ?_⟩
    have hsub : (t - t).toRat? = some (a - a) := JSNum.toRat?_sub ha ha
    have hdiv := JSNum.toRat?_div hsub ha hane
    rw [sub_self, zero_div] at hdiv
    exact isZero_of_toRat?_zero hdiv

/-- C10 at total variable costs 100: in the initial state the margin cell shows the entered 0,
the selling price is 100 and the contribution over it is a zero; with 20 entered the cell
shows 20, and by the formulas the selling price 125 has the margin 25/125 = 20/100. -/
theorem target_margin_cell_is_entered_percent_witness :
    TotalsTable.aggregate (sampleTable sampleQuoteHundred) "totalVariableCosts" = some 100
    ∧ (100 : JSNum).toRat? = some 100 ∧ (100 : ℚ) ≠ 0 ∧ (20 : ℚ) ≠ 100
    ∧ (∃ cells, TotalsTable sampleQuoteHundred (sampleTable sampleQuoteHundred)
          TotalsTableState.initial = some cells
        ∧ cells.contributionRows.targetMargin = 0
        ∧ cells.sellingPrice = 100
        ∧ (cells.contributionRows.targetContrib / cells.sellingPrice).isZero = true)
    ∧ (∃ cells, TotalsTable sampleQuoteHundred (sampleTable sampleQuoteHundred)
          ⟨20, 125, 0⟩ = some cells
        ∧ cells.contributionRows.targetMargin = 20)
    ∧ targetSellingPriceFormula 100 20 = 125
    ∧ contributionMarginFormula (targetSellingPriceFormula 100 20) 100 = 20 / 100 := by
  have h100 : (100 : JSNum).toRat? = some 100 := by simp [JSNum.ofNat_eq_fin, JSNum.toRat?]
  obtain ⟨cells0, hcells0⟩ := TotalsTable_renders sampleQuoteHundred
    (sampleTable sampleQuoteHundred) TotalsTableState.initial 100 4 (by decide)
    sampleTable_aggregates.2.2.1 sampleTable_aggregates.2.2.2.1
  obtain ⟨cells, hcells⟩ := TotalsTable_renders sampleQuoteHundred
    (sampleTable sampleQuoteHundred) ⟨20, 125, 0⟩ 100 4 (by decide)
    sampleTable_aggregates.2.2.1 sampleTable_aggregates.2.2.2.1
  have hinit := target_margin_cell_is_entered_percent.2.2.2 sampleQuoteHundred
    (sampleTable sampleQuoteHundred) TotalsTableState.initial cells0 100 100 hcells0
    sampleTable_aggregates.2.2.1 h100 (by norm_num) rfl
  refine ⟨sampleTable_aggregates.2.2.1, h100, by norm_num, by norm_num,
    ⟨cells0, hcells0, ?_, hinit.1, hinit.2⟩, ⟨cells, hcells, ?_⟩, ?_, ?_⟩
  · exact target_margin_cell_is_entered_percent.2.1 sampleQuoteHundred
      (sampleTable sampleQuoteHundred) TotalsTableState.initial cells0 hcells0
  · exact target_margin_cell_is_entered_percent.2.1 sampleQuoteHundred
      (sampleTable sampleQuoteHundred) ⟨20, 125, 0⟩ cells hcells
  · unfold targetSellingPriceFormula
    norm_num
  · exact target_margin_cell_is_entered_percent.2.2.1 100 20 (by norm_num) (by norm_num)

end PricingTab

namespace PricingTab

/-! ## C11 -/

/-- C11, evaluated on the code: the ids of the dynamic cost rows of `TotalsTable` are those of
the first product's costs only. For a quote without products the property access throws
(`none`) and `TotalsTable` renders nothing, while `PricingTable` derives the empty list of
dynamic columns; for three products with costs `[shipping]`, `[shipping, packaging]`, `[]`
the rows are `[dynamic-cost-shipping]` while the dynamic columns are
`[dynamic-cost-shipping, dynamic-cost-packaging]`. -/
theorem dynamicCostIds_first_product_only :
    (∀ (p : Product) (ps : List Product),
      TotalsTable.dynamicCostIds ⟨p :: ps⟩
        = some (p.costs.map (fun cost => "dynamic-cost-" ++ cost.name)))
    ∧ TotalsTable.dynamicCostIds ⟨[]⟩ = none
    ∧ (PricingTable.dynamicColumns ⟨[]⟩).map (fun column => column.id) = []
    ∧ (∀ (table : Table) (state : TotalsTableState), TotalsTable ⟨[]⟩ table state = none)
    ∧ TotalsTable.dynamicCostIds sampleQuoteThree = some ["dynamic-cost-shipping"]
    ∧ (PricingTable.dynamicColumns sampleQuoteThree).map (fun column => column.id)
        = ["dynamic-cost-shipping", "dynamic-cost-packaging"] := by
  refine ⟨?_, ?_, ?_, ?_, ?_, ?_⟩
  · intro p ps
    simp [TotalsTable.dynamicCostIds]
  · rfl
  · rfl
  · intro table state
    simp [TotalsTable, TotalsTable.dynamicCostIds]
  · decide
  · have hnames : PricingTable.dynamicColumnNames sampleQuoteThree
        = ["shipping", "packaging"] := by decide
    simp only [PricingTable.dynamicColumns, hnames, List.map_cons, List.map_nil,
      PricingTable.dynamicColumn]
    decide

/-! ## C12 -/

end PricingTab

namespace PricingTab

/-- The contribution of the footer is the aggregate, or 0 without one. -/
theorem ContributionFooter_contribution_eq (aggregate : Table → String → Option JSNum)
    (table : Table) (x : JSNum)
    (hx : aggregate table "contributionDollars" = some x
      ∨ (aggregate table "contributionDollars" = none ∧ x = 0)) :
    ContributionFooter.contribution aggregate table = x := by
  rcases hx with h | ⟨h, rfl⟩ <;> simp [ContributionFooter.contribution, h]

/-- The divisor of the footer is the aggregate of the divisor column, or 0 without a divisor
column or without an aggregate. -/
theorem ContributionFooter_divisor_eq (aggregate : Table → String → Option JSNum)
    (table : Table) (columnMeta : Option ContributionMeta) (d : JSNum)
    (hd : (∃ id, ContributionFooter.divisorId columnMeta = some id ∧ id ≠ ""
          ∧ aggregate table id = some d)
      ∨ ((ContributionFooter.divisorId columnMeta = none
          ∨ ContributionFooter.divisorId columnMeta = some ""
          ∨ ∃ id, ContributionFooter.divisorId columnMeta = some id
              ∧ aggregate table id = none) ∧ d = 0)) :
    ContributionFooter.divisor aggregate table columnMeta = d := by
  rcases hd with ⟨id, hid, hne, hagg⟩ | ⟨h | h | ⟨id, hid, hagg⟩, rfl⟩
  · simp [ContributionFooter.divisor, hid, truthy, hne, hagg]
  · simp [ContributionFooter.divisor, h, truthy]
  · simp [ContributionFooter.divisor, h, truthy]
  · by_cases hne : id = ""
    · simp [ContributionFooter.divisor, hid, truthy, hne]
    · simp [ContributionFooter.divisor, hid, truthy, hne, hagg]

/-- C12: `ContributionFooter` never divides by zero. With `x` the aggregated contribution
(0 when the aggregate is `null` or `undefined`) and `d` the aggregate of the divisor column
(0 when the column has no `footerContribDivisor`, or an empty one, or when its aggregate is
`null` or `undefined`), the value handed to the formatter is 0 when `d` is a zero (`+0` or
`-0`) and the quotient `x / d` otherwise; for finite `x` and a finite non-zero `d` its value is
the quotient of their values. The variant is the column's `footerContribFormat`, `number` by
default. -/
theorem contributionFooter_never_divides_by_zero
    (aggregate : Table → String → Option JSNum) (table : Table)
    (columnMeta : Option ContributionMeta) (x d : JSNum)
    (hx : aggregate table "contributionDollars" = some x
      ∨ (aggregate table "contributionDollars" = none ∧ x = 0))
    (hd : (∃ id, ContributionFooter.divisorId columnMeta = some id ∧ id ≠ ""
          ∧ aggregate table id = some d)
      ∨ ((ContributionFooter.divisorId columnMeta = none
          ∨ ContributionFooter.divisorId columnMeta = some ""
          ∨ ∃ id, ContributionFooter.divisorId columnMeta = some id
              ∧ aggregate table id = none) ∧ d = 0)) :
    (ContributionFooter aggregate table columnMeta).value
        = (if d.isZero = true then 0 else x / d)
    ∧ (d.isZero = true → (ContributionFooter aggregate table columnMeta).value = 0)
    ∧ (d.isZero = false → (ContributionFooter aggregate table columnMeta).value = x / d)
    ∧ (∀ a b : ℚ, x.toRat? = some a → d.toRat? = some b → b ≠ 0 →
        (ContributionFooter aggregate table columnMeta).value.toRat? = some (a / b))
    ∧ (ContributionFooter aggregate table columnMeta).variant
        = (columnMeta.bind (fun m => m.footerContribFormat)).getD "number" := by
  have hval := ContributionFooter_value aggregate table columnMeta
  rw [ContributionFooter_contribution_eq aggregate table x hx,
    ContributionFooter_divisor_eq aggregate table columnMeta d hd] at hval
  refine ⟨hval, ?_, ?_, ?_, rfl⟩
  · intro hz
    rw [hval, if_pos hz]
  · intro hz
    rw [hval, if_neg (by simp [hz])]
  · intro a b ha hb hne
    have hz : d.isZero = false := by
      rw [JSNum.toRat?_eq_some_iff] at hb
      rcases hb with rfl | ⟨_, h0⟩
      · simp [JSNum.isZero, hne]
      · exact absurd h0 hne
    rw [hval, if_neg (by simp [hz])]
    exact JSNum.toRat?_div ha hb hne

/-- C12 at sample aggregates: a contribution of 25 over 4 estimated hours gives 25/4 in the
`currency` variant; over a divisor column that aggregates to 0 it gives 0. -/
theorem contributionFooter_never_divides_by_zero_witness :
    sampleAggregate (sampleTable sampleQuote) "contributionDollars" = some 25
    ∧ sampleAggregate (sampleTable sampleQuote) "estimated_hours" = some 4
    ∧ sampleAggregate (sampleTable sampleQuote) "idleHours" = some 0
    ∧ ContributionFooter sampleAggregate (sampleTable sampleQuote)
        (some ⟨some "estimated_hours", some "currency"⟩) = ⟨JSNum.fin (25 / 4), "currency"⟩
    ∧ ContributionFooter sampleAggregate (sampleTable sampleQuote)
        (some ⟨some "idleHours", none⟩) = ⟨0, "number"⟩ := by
  have hx : sampleAggregate (sampleTable sampleQuote) "contributionDollars" = some 25 := by
    decide
  have h4 : sampleAggregate (sampleTable sampleQuote) "estimated_hours" = some 4 := by decide
  have h0 : sampleAggregate (sampleTable sampleQuote) "idleHours" = some 0 := by decide
  have hfour := contributionFooter_never_divides_by_zero sampleAggregate
    (sampleTable sampleQuote) (some ⟨some "estimated_hours", some "currency"⟩) 25 4
    (Or.inl hx) (Or.inl ⟨"estimated_hours", rfl, by decide, h4⟩)
  have hzero := contributionFooter_never_divides_by_zero sampleAggregate
    (sampleTable sampleQuote) (some ⟨some "idleHours", none⟩) 25 0
    (Or.inl hx) (Or.inl ⟨"idleHours", rfl, by decide, h0⟩)
  refine ⟨hx, h4, h0, ?_, ?_⟩
  · have hv := hfour.2.2.1 (by simp [JSNum.ofNat_eq_fin, JSNum.isZero])
    have hvar := hfour.2.2.2.2
    have hq : (25 : JSNum) / 4 = JSNum.fin (25 / 4) := by
      simp only [JSNum.ofNat_eq_fin]
      norm_num [JSNum.fin_div_fin]
    rw [hq] at hv
    cases hc : ContributionFooter sampleAggregate (sampleTable sampleQuote)
      (some ⟨some "estimated_hours", some "currency"⟩) with
    | mk value variant =>
      rw [hc] at hv hvar
      simp only at hv hvar
      rw [hv, hvar]
      rfl
  · have hv := hzero.2.1 (by simp [JSNum.ofNat_eq_fin, JSNum.isZero])
    have hvar := hzero.2.2.2.2
    cases hc : ContributionFooter sampleAggregate (sampleTable sampleQuote)
      (some ⟨some "idleHours", none⟩) with
    | mk value variant =>
      rw [hc] at hv hvar
      simp only at hv hvar
      rw [hv, hvar]
      rfl

end PricingTab
